import Mathlib

set_option maxRecDepth 10000

/-!
Verification of the market-data aggregation layer of the stock-predictor
repository: the observability recorder (`src/lib/api-observability.ts`) and the
three request handlers (`/api/stocks/[symbol]`, `/api/search`, `/api/candles`).

Modelling conventions for the shallow embedding:
* JavaScript numbers are modelled by `JsNum`: a finite rational or a
  non-finite value (`NaN` / `±Infinity`), which is all `Number.isFinite`
  distinguishes in the code under study.  After `toNum` coercion all values
  are finite rationals.
* Network effects are explicit inputs: an adapter takes the (already decoded)
  HTTP response it would observe, and a route handler takes each adapter's
  outcome (`Except String payload`, where `Except.error msg` models a thrown
  `Error` with that message) together with the latency the runtime would
  measure for the attempt.
* Host-runtime primitive coercions (`Number(...)` on upstream strings,
  `Date` parsing in `parseTimestamp`) are modelled as already-performed:
  upstream rows carry the `JsNum` those coercions produce.
* String routines are modelled on the ASCII alphabet all relevant constants
  and inputs use; `normalize("NFKD")` and combining-mark stripping are the
  identity there.
-/

namespace StockPredictor

/-- Model of a JavaScript number: a finite rational, or a non-finite value
(`NaN` or `±Infinity`, which the code only ever inspects via
`Number.isFinite`). -/
inductive JsNum where
  | num (q : ℚ)
  | nonfinite
deriving DecidableEq, Repr

/-- `Number.isFinite`. -/
def JsNum.isFinite : JsNum → Bool
  | .num _ => true
  | .nonfinite => false

/-- The rational value of a finite `JsNum`; junk (0) on non-finite values,
which the code never reads thanks to short-circuiting `isFinite` guards. -/
def JsNum.toQ : JsNum → ℚ
  | .num q => q
  | .nonfinite => 0

/-- `String.prototype.slice(0, n)`. -/
def sliceTo (s : String) (n : ℕ) : String := ⟨s.data.take n⟩

/-!
Character-level string primitives.  The corresponding core `String` functions
run position-based loops the kernel cannot always reduce, so the embedding
uses these `List Char` based equivalents (the modelled strings are ASCII,
where they agree with the JS originals).
-/

/-- `String.prototype.toUpperCase`. -/
def jsToUpper (s : String) : String := ⟨s.data.map Char.toUpper⟩

/-- `String.prototype.toLowerCase`. -/
def jsToLower (s : String) : String := ⟨s.data.map Char.toLower⟩

/-- `String.prototype.trim`. -/
def jsTrim (s : String) : String :=
  ⟨((s.data.dropWhile Char.isWhitespace).reverse.dropWhile Char.isWhitespace).reverse⟩

/-- `value.trim().toUpperCase()`, the normalization applied to symbols and
range keys throughout the routes. -/
def normSymbol (s : String) : String := jsToUpper (jsTrim s)

/-- `String.prototype.startsWith`. -/
def jsStartsWith (s pre : String) : Bool := pre.data.isPrefixOf s.data

/-- Helper for `jsIncludes`: `sub` occurs in the remaining character list. -/
def includesAux (sub : List Char) : List Char → Bool
  | [] => sub.isEmpty
  | c :: rest => sub.isPrefixOf (c :: rest) || includesAux sub rest

/-- `String.prototype.includes`. -/
def jsIncludes (s sub : String) : Bool := includesAux sub.data s.data

/-- `String.prototype.split` on a single-character separator (every separator
used by the embedded code is a single character). -/
def splitOnChar (sep : Char) : List Char → List (List Char)
  | [] => [[]]
  | c :: rest =>
    if c = sep then [] :: splitOnChar sep rest
    else
      match splitOnChar sep rest with
      | [] => [[c]]
      | w :: ws => (c :: w) :: ws

/-- `split` on a single-character separator, producing strings. -/
def jsSplitOn (sep : Char) (s : String) : List String :=
  (splitOnChar sep s.data).map String.mk

/-- `Array.prototype.join(" ")`. -/
def joinSpace : List String → String
  | [] => ""
  | [w] => w
  | w :: ws => w ++ " " ++ joinSpace ws

namespace Obs

/-- `ProviderAttemptStatus` from `api-observability.ts`. -/
inductive AttemptStatus where
  | ok
  | error
  | skipped
deriving DecidableEq, Repr

/-- `ProviderAttempt` from `api-observability.ts`; `error` is `none` when the
field is absent (`undefined`). -/
structure ProviderAttempt where
  provider : String
  status : AttemptStatus
  latencyMs : ℕ
  error : Option String
deriving DecidableEq, Repr

/-- `sanitizeErrorMessage` for a thrown `Error`: its message sliced to 300
characters.  (All errors thrown in the embedded code are `Error`s, modelled
by their message string; the `"Unknown error"` fallback is unreachable.) -/
def sanitizeErrorMessage (msg : String) : String := sliceTo msg 300

/-- The completion function returned by `beginProviderAttempt`.  The elapsed
latency the runtime would measure (`Math.max(0, Date.now() - startedAt)`,
a non-negative integer) is supplied as `latencyMs`. -/
def completeAttempt (provider : String) (latencyMs : ℕ) (status : AttemptStatus)
    (errMsg : String) : ProviderAttempt :=
  { provider := provider
    status := status
    latencyMs := latencyMs
    error := if status = AttemptStatus.error then some (sanitizeErrorMessage errMsg) else none }

/-- `recordSkippedProviderAttempt`: latency 0, reason sliced to 300. -/
def recordSkippedProviderAttempt (provider reason : String) : ProviderAttempt :=
  { provider := provider
    status := AttemptStatus.skipped
    latencyMs := 0
    error := some (sliceTo reason 300) }

/-- `ProviderRecord`: an attempt plus the request id, route and timestamp
under which it was appended to the process-wide log. -/
structure ProviderRecord where
  provider : String
  status : AttemptStatus
  latencyMs : ℕ
  error : Option String
  requestId : String
  route : String
  atIso : String
deriving DecidableEq, Repr

/-- Ascending numeric sort, the model of `[...values].sort((a, b) => a - b)`. -/
def sortNat (l : List ℕ) : List ℕ := List.insertionSort (· ≤ ·) l

/-- `percentile` from `api-observability.ts`.  `Math.floor((p / 100) * length)`
is `p * length / 100` in exact arithmetic (all quantities non-negative, so the
`Math.max(0, _)` clamp is the identity). -/
def percentile (values : List ℕ) (p : ℕ) : ℕ :=
  if values = [] then 0
  else
    let sorted := sortNat values
    let idx := min (sorted.length - 1) (p * sorted.length / 100)
    sorted.getD idx 0

/-- `Math.round`: round half toward positive infinity. -/
def jsRound (q : ℚ) : ℤ := ⌊q + 1 / 2⌋

/-- `Number(x.toFixed(3))` for non-negative `x`: round to 3 decimals, ties
toward the larger value. -/
def toFixed3 (q : ℚ) : ℚ := (jsRound (q * 1000) : ℚ) / 1000

/-- One accumulator cell of `getObservabilitySnapshot`'s `grouped` map. -/
structure Group where
  route : String
  provider : String
  count : ℕ
  successCount : ℕ
  errorCount : ℕ
  skippedCount : ℕ
  latencies : List ℕ
  lastError : Option String
deriving DecidableEq, Repr

/-- The fresh cell created when a key is first seen. -/
def emptyGroup (route provider : String) : Group :=
  { route := route, provider := provider, count := 0, successCount := 0, errorCount := 0
    skippedCount := 0, latencies := [], lastError := none }

/-- One loop iteration of the grouping pass: count, per-status counts, latency
list, and `lastError` (set only for an error record whose `error` is truthy,
i.e. present and non-empty). -/
def updateGroup (g : Group) (r : ProviderRecord) : Group :=
  { g with
    count := g.count + 1
    successCount := g.successCount + (if r.status = AttemptStatus.ok then 1 else 0)
    errorCount := g.errorCount + (if r.status = AttemptStatus.error then 1 else 0)
    skippedCount := g.skippedCount + (if r.status = AttemptStatus.skipped then 1 else 0)
    latencies := g.latencies ++ [r.latencyMs]
    lastError :=
      if r.status = AttemptStatus.error ∧ r.error.getD "" ≠ "" then r.error else g.lastError }

/-- The key `` `${record.route}|${record.provider}` ``. -/
def recordKey (r : ProviderRecord) : String := r.route ++ "|" ++ r.provider

/-- `grouped.set(key, existing)`: a JS `Map` updates an existing key in place
and appends a new key at the end. -/
def upsertGroup : List (String × Group) → ProviderRecord → List (String × Group)
  | [], r => [(recordKey r, updateGroup (emptyGroup r.route r.provider) r)]
  | (k, g) :: rest, r =>
      if k = recordKey r then (k, updateGroup g r) :: rest
      else (k, g) :: upsertGroup rest r

/-- The grouping loop over the whole record log. -/
def groupRecords (records : List ProviderRecord) : List (String × Group) :=
  records.foldl upsertGroup []

/-- One element of the snapshot's `providerMetrics`. -/
structure Metric where
  route : String
  provider : String
  count : ℕ
  successCount : ℕ
  errorCount : ℕ
  skippedCount : ℕ
  avgLatencyMs : ℤ
  p95LatencyMs : ℕ
  successRate : ℚ
  lastError : Option String
deriving DecidableEq, Repr

/-- The `.map` step building a metric from a group.  `Math.round` applied to
the integer `percentile` result is the identity, so `p95LatencyMs` is the
percentile itself. -/
def metricOf (g : Group) : Metric :=
  { route := g.route
    provider := g.provider
    count := g.count
    successCount := g.successCount
    errorCount := g.errorCount
    skippedCount := g.skippedCount
    avgLatencyMs :=
      if 0 < g.latencies.length then
        jsRound ((g.latencies.sum : ℚ) / (g.latencies.length : ℚ))
      else 0
    p95LatencyMs := percentile g.latencies 95
    successRate :=
      if 0 < g.count then toFixed3 ((g.successCount : ℚ) / (g.count : ℚ)) else 0
    lastError := g.lastError }

/-- The final comparator `b.count - a.count || a.route.localeCompare(b.route)
|| a.provider.localeCompare(b.provider)` (`localeCompare` modelled as
code-point order, with which it agrees on the ASCII route and provider names
in use): `a` sorts before `b`. -/
def metricBefore (a b : Metric) : Prop :=
  b.count < a.count ∨
    (a.count = b.count ∧ (a.route < b.route ∨ (a.route = b.route ∧ a.provider ≤ b.provider)))

instance : DecidableRel metricBefore := by
  intro a b
  unfold metricBefore
  infer_instance

/-- The sorted `providerMetrics` array of the snapshot. -/
def providerMetrics (records : List ProviderRecord) : List Metric :=
  List.insertionSort metricBefore ((groupRecords records).map Prod.snd |>.map metricOf)

/-- The result shape of `getObservabilitySnapshot` (the `generatedAt`
timestamp is omitted; `recentCalls` and `recentErrors` keep the record shape,
whose fields the route merely re-labels). -/
structure Snapshot where
  totalRecords : ℕ
  providerMetrics : List Metric
  recentCalls : List ProviderRecord
  recentErrors : List ProviderRecord
deriving Repr

/-- `getObservabilitySnapshot(limit)` over the given record log. -/
def getObservabilitySnapshot (limit : ℤ) (records : List ProviderRecord) : Snapshot :=
  let cappedLimit := (min (max limit 1) 500).toNat
  let recent := (records.drop (records.length - cappedLimit)).reverse
  { totalRecords := records.length
    providerMetrics := providerMetrics records
    recentCalls := recent
    recentErrors := (recent.filter (fun r => decide (r.status = AttemptStatus.error))).take 30 }

/-- Modelled from the spec: "95th-percentile latency (nearest-rank
interpolation over all recorded latencies for that group)" — the value at
(1-based) rank `⌈(p / 100) · n⌉` of the sorted latency list. -/
def nearestRankPercentile (values : List ℕ) (p : ℕ) : ℕ :=
  if values = [] then 0
  else
    let sorted := sortNat values
    sorted.getD ((⌈(p * sorted.length : ℚ) / 100⌉).toNat - 1) 0

end Obs

/-- A parsed JSON object whose contents the embedded code treats opaquely
(the `profile` payloads). -/
structure JsObject where
  fields : List (String × String)
deriving DecidableEq, Repr

namespace Stocks

/-- `Quote` from `/api/stocks/[symbol]/route.ts`; all fields have passed
through `toNum` and are finite. -/
structure Quote where
  c : ℚ
  d : ℚ
  dp : ℚ
  h : ℚ
  l : ℚ
  o : ℚ
  pc : ℚ
  t : ℚ
deriving DecidableEq, Repr

/-- `StockPayload`. -/
structure StockPayload where
  quote : Quote
  profile : Option JsObject
  provider : String
deriving DecidableEq, Repr

/-- `toNum`: `Number(value)` (supplied as a `JsNum`) if finite, else the
fallback. -/
def toNum (value : JsNum) (fallback : ℚ := 0) : ℚ :=
  match value with
  | .num q => q
  | .nonfinite => fallback

/-- The Finnhub quote JSON body, fields already coerced by `Number(...)`:
a missing field is `Number(undefined) = NaN`, i.e. `JsNum.nonfinite`.
`errorField` is the `error` member (`none` when absent). -/
structure FinnhubQuoteJson where
  errorField : Option String
  c : JsNum
  d : JsNum
  dp : JsNum
  h : JsNum
  l : JsNum
  o : JsNum
  pc : JsNum
  t : JsNum
deriving DecidableEq, Repr

/-- `normalizeFinnhubQuote`; `now` is the `nowSec()` fallback for `t`. -/
def normalizeFinnhubQuote (now : ℚ) (raw : FinnhubQuoteJson) : Quote :=
  { c := toNum raw.c
    d := toNum raw.d
    dp := toNum raw.dp
    h := toNum raw.h
    l := toNum raw.l
    o := toNum raw.o
    pc := toNum raw.pc
    t := toNum raw.t now }

/-- The Twelve Data quote JSON body.  `dp` carries the `Number(...)` value of
`String(raw.percent_change ?? "").replace("%", "").trim()`; the other numeric
fields carry `Number(raw.x)`.  `name`/`exchange`/`currency`/`country` feed the
synthesized profile (`none` models an absent member, replaced via `??`). -/
structure TwelveQuoteJson where
  status : Option String
  message : Option String
  close : JsNum
  change : JsNum
  percentChange : JsNum
  high : JsNum
  low : JsNum
  open_ : JsNum
  previousClose : JsNum
  timestamp : JsNum
  name : Option String
  exchange : Option String
  currency : Option String
  country : Option String
deriving DecidableEq, Repr

/-- `normalizeTwelveDataQuote`. -/
def normalizeTwelveDataQuote (now : ℚ) (raw : TwelveQuoteJson) : Quote :=
  { c := toNum raw.close
    d := toNum raw.change
    dp := toNum raw.percentChange
    h := toNum raw.high
    l := toNum raw.low
    o := toNum raw.open_
    pc := toNum raw.previousClose
    t := toNum raw.timestamp now }

/-- `hasQuoteData`: `Number.isFinite(quote.c) && quote.c > 0`.  After
normalization `quote.c` is a finite rational, so the finiteness conjunct is
always true. -/
def hasQuoteData (quote : Quote) : Bool := decide (0 < quote.c)

/-- An HTTP response as the Finnhub quote adapter decodes it: `ok`/`status`
from the `Response`, and `json` the parsed body (`none` when parsing failed —
the `.catch(() => null)` — or the value is not an object). -/
structure FinnhubQuoteRes where
  ok : Bool
  status : ℕ
  json : Option FinnhubQuoteJson
deriving DecidableEq, Repr

/-- The profile HTTP response: `json` is `none` when parsing failed or the
body is not an object. -/
structure ProfileRes where
  ok : Bool
  status : ℕ
  json : Option JsObject
deriving DecidableEq, Repr

/-- Truthiness of the `error` member of the Finnhub quote body:
`"error" in quoteJson && quoteJson.error`. -/
def finnhubErrorTruthy (raw : FinnhubQuoteJson) : Bool :=
  match raw.errorField with
  | some e => decide (e ≠ "")
  | none => false

/-- `fetchFromFinnhub`.  `quoteFetch` / `profileFetch` are the awaited fetches
(`Except.error m` models a rejected fetch, whose `await` throws and
propagates — note the profile fetch itself is NOT wrapped in any catch; only
its `.json()` is). -/
def fetchFromFinnhub (now : ℚ) (quoteFetch : Except String FinnhubQuoteRes)
    (profileFetch : Except String ProfileRes) : Except String StockPayload :=
  match quoteFetch with
  | .error m => .error m
  | .ok quoteRes =>
    match quoteRes.json with
    | none => .error ("Finnhub quote failed (" ++ toString quoteRes.status ++ ")")
    | some quoteJson =>
      if ¬quoteRes.ok then
        .error ("Finnhub quote failed (" ++ toString quoteRes.status ++ ")")
      else if finnhubErrorTruthy quoteJson then
        .error (quoteJson.errorField.getD "")
      else
        let quote := normalizeFinnhubQuote now quoteJson
        if ¬hasQuoteData quote then .error "Finnhub returned no quote data"
        else
          match profileFetch with
          | .error m => .error m
          | .ok profileRes =>
            .ok { quote := quote, profile := profileRes.json, provider := "finnhub" }

/-- The Twelve Data quote HTTP response. -/
structure TwelveQuoteRes where
  ok : Bool
  status : ℕ
  json : Option TwelveQuoteJson
deriving DecidableEq, Repr

/-- `fetchFromTwelveData` for a given (already trimmed, uppercased) symbol. -/
def fetchFromTwelveData (now : ℚ) (symbol : String)
    (quoteFetch : Except String TwelveQuoteRes) : Except String StockPayload :=
  match quoteFetch with
  | .error m => .error m
  | .ok res =>
    match res.json with
    | none => .error ("Twelve Data quote failed (" ++ toString res.status ++ ")")
    | some raw =>
      if ¬res.ok then
        .error ("Twelve Data quote failed (" ++ toString res.status ++ ")")
      else if raw.status = some "error" then
        .error (raw.message.getD "Twelve Data quote error")
      else
        let quote := normalizeTwelveDataQuote now raw
        if ¬hasQuoteData quote then .error "Twelve Data returned no quote data"
        else
          .ok
            { quote := quote
              profile := some
                ⟨[("ticker", symbol), ("name", raw.name.getD symbol),
                  ("exchange", raw.exchange.getD ""), ("currency", raw.currency.getD ""),
                  ("country", raw.country.getD "")]⟩
              provider := "twelvedata" }

/-- The environment and adapter outcomes a single `GET /stocks/{symbol}`
request observes: which API keys are configured, what each adapter call
would produce if made, and the latency the recorder would measure for it. -/
structure StocksDeps where
  finnhubKey : Option String
  twelvedataKey : Option String
  finnhubOutcome : Except String StockPayload
  finnhubLatency : ℕ
  twelvedataOutcome : Except String StockPayload
  twelvedataLatency : ℕ

/-- The JSON body (plus HTTP status) of a `GET /stocks/{symbol}` response.
`providers` is the `providers: {provider: reason}` map as an insertion-ordered
association list; it is empty on success responses, which carry no such
field. -/
structure StocksResponse where
  status : ℕ
  payload : Option StockPayload
  errorMsg : Option String
  providers : List (String × String)
  attempts : List Obs.ProviderAttempt
deriving DecidableEq, Repr

/-- The `GET` handler of `/api/stocks/[symbol]`.  Early returns are modelled
by the `Sum`: `inl` carries a success payload with its attempt list, `inr`
the accumulated provider errors and attempts. -/
def stocksGET (rawSymbol : String) (d : StocksDeps) : StocksResponse :=
  let symbol := normSymbol rawSymbol
  if symbol = "" then
    { status := 400, payload := none, errorMsg := some "Missing symbol", providers := []
      attempts := [] }
  else
    let afterFinnhub : (StockPayload × List Obs.ProviderAttempt) ⊕
        (List (String × String) × List Obs.ProviderAttempt) :=
      match d.finnhubKey with
      | some _ =>
        match d.finnhubOutcome with
        | .ok payload =>
            .inl (payload, [Obs.completeAttempt "finnhub" d.finnhubLatency .ok ""])
        | .error e =>
            .inr ([("finnhub", e)], [Obs.completeAttempt "finnhub" d.finnhubLatency .error e])
      | none =>
        .inr ([("finnhub", "FINNHUB_API_KEY missing")],
          [Obs.recordSkippedProviderAttempt "finnhub" "FINNHUB_API_KEY missing"])
    match afterFinnhub with
    | .inl (payload, attempts) =>
      { status := 200, payload := some payload, errorMsg := none, providers := []
        attempts := attempts }
    | .inr (errs, attempts) =>
      let afterTwelve : (StockPayload × List Obs.ProviderAttempt) ⊕
          (List (String × String) × List Obs.ProviderAttempt) :=
        match d.twelvedataKey with
        | some _ =>
          match d.twelvedataOutcome with
          | .ok payload =>
              .inl (payload,
                attempts ++ [Obs.completeAttempt "twelvedata" d.twelvedataLatency .ok ""])
          | .error e =>
              .inr (errs ++ [("twelvedata", e)],
                attempts ++ [Obs.completeAttempt "twelvedata" d.twelvedataLatency .error e])
        | none =>
          .inr (errs ++ [("twelvedata", "TWELVEDATA_API_KEY missing")],
            attempts ++
              [Obs.recordSkippedProviderAttempt "twelvedata" "TWELVEDATA_API_KEY missing"])
      match afterTwelve with
      | .inl (payload, attempts2) =>
        { status := 200, payload := some payload, errorMsg := none, providers := []
          attempts := attempts2 }
      | .inr (errs2, attempts2) =>
        { status := 502, payload := none
          errorMsg := some "Unable to fetch stock data from configured providers"
          providers := errs2, attempts := attempts2 }

end Stocks

namespace Candles

/-- `RangeKey` from `/api/candles/route.ts`. -/
inductive RangeKey where
  | r24H
  | r1W
  | r1M
  | r3M
  | r6M
  | r1Y
  | r5Y
deriving DecidableEq, Repr

/-- The string a `RangeKey` prints as (used in the cache key and the 502
body). -/
def rangeStr : RangeKey → String
  | .r24H => "24H"
  | .r1W => "1W"
  | .r1M => "1M"
  | .r3M => "3M"
  | .r6M => "6M"
  | .r1Y => "1Y"
  | .r5Y => "5Y"

/-- `RANGE_ALIASES`. -/
def RANGE_ALIASES : List (String × RangeKey) :=
  [("24H", .r24H), ("1D", .r24H), ("3H", .r24H), ("1W", .r1W), ("1M", .r1M),
   ("3M", .r3M), ("6M", .r6M), ("1Y", .r1Y), ("YTD", .r1Y), ("5Y", .r5Y)]

/-- `parseRange`: missing parameter defaults to `"3M"`, the value is trimmed
and uppercased, and any key not in the alias table falls back to `3M`. -/
def parseRange (raw : Option String) : RangeKey :=
  let normalized := normSymbol (raw.getD "3M")
  (RANGE_ALIASES.lookup normalized).getD .r3M

/-- `rangeToFrom` (times in epoch seconds). -/
def rangeToFrom (range : RangeKey) (to_ : ℤ) : ℤ :=
  let day : ℤ := 24 * 60 * 60
  match range with
  | .r24H => to_ - day
  | .r1W => to_ - 7 * day
  | .r1M => to_ - 30 * day
  | .r3M => to_ - 90 * day
  | .r6M => to_ - 180 * day
  | .r1Y => to_ - 365 * day
  | .r5Y => to_ - 5 * 365 * day

/-- `finnhubResolution`. -/
def finnhubResolution : RangeKey → String
  | .r24H => "5"
  | .r1W => "30"
  | .r1M => "60"
  | .r3M => "D"
  | .r6M => "D"
  | .r1Y => "D"
  | .r5Y => "W"

/-- `twelveDataInterval`. -/
def twelveDataInterval : RangeKey → String
  | .r24H => "5min"
  | .r1W => "30min"
  | .r1M => "1h"
  | .r3M => "1day"
  | .r6M => "1day"
  | .r1Y => "1day"
  | .r5Y => "1week"

/-- `ttlSeconds`. -/
def ttlSeconds : RangeKey → ℕ
  | .r24H => 20
  | .r1W => 45
  | .r1M => 60
  | _ => 180

/-- `CandleRow`; each field is the `JsNum` produced by the host coercions
(`Number(...)`, and `parseTimestamp` for Twelve Data / Alpha Vantage `t`,
which yields `NaN` — `nonfinite` — on an unparsable date string). -/
structure CandleRow where
  t : JsNum
  o : JsNum
  h : JsNum
  l : JsNum
  c : JsNum
  v : JsNum
deriving DecidableEq, Repr

/-- `CandlePayload`. -/
structure CandlePayload where
  t : List JsNum
  o : List JsNum
  h : List JsNum
  l : List JsNum
  c : List JsNum
  v : List JsNum
  provider : String
  symbol : String
  range : RangeKey
  resolution : String
deriving DecidableEq, Repr

/-- `toPayload`. -/
def toPayload (rows : List CandleRow) (provider symbol : String) (range : RangeKey)
    (resolution : String) : CandlePayload :=
  { t := rows.map CandleRow.t
    o := rows.map CandleRow.o
    h := rows.map CandleRow.h
    l := rows.map CandleRow.l
    c := rows.map CandleRow.c
    v := rows.map CandleRow.v
    provider := provider
    symbol := symbol
    range := range
    resolution := resolution }

/-- The filter predicate of `normalizeRows`: all six fields finite and the
timestamp inside the closed `[from, to]` window. -/
def rowKeep (from_ to_ : ℚ) (r : CandleRow) : Bool :=
  r.t.isFinite && r.o.isFinite && r.h.isFinite && r.l.isFinite && r.c.isFinite &&
    r.v.isFinite && decide (from_ ≤ r.t.toQ) && decide (r.t.toQ ≤ to_)

/-- The comparator `(a, b) => a.t - b.t` as an ordering on rows. -/
def rowLE (a b : CandleRow) : Prop := a.t.toQ ≤ b.t.toQ

instance : DecidableRel rowLE := by
  intro a b
  unfold rowLE
  infer_instance

instance : IsTotal CandleRow rowLE := ⟨fun a b => le_total a.t.toQ b.t.toQ⟩

instance : IsTrans CandleRow rowLE := ⟨fun _ _ _ hab hbc => le_trans hab hbc⟩

/-- `normalizeRows`: filter to finite rows inside the window, then a stable
ascending sort on `t`. -/
def normalizeRows (rows : List CandleRow) (from_ to_ : ℚ) : List CandleRow :=
  List.insertionSort rowLE (rows.filter (rowKeep from_ to_))

/-- The Finnhub candle JSON body: `s`, the six parallel arrays (each entry the
`Number(...)` coercion of the wire value), and the `error` member read by the
non-2xx branch. -/
structure FinnhubCandleJson where
  s : Option String
  t : Option (List JsNum)
  o : Option (List JsNum)
  h : Option (List JsNum)
  l : Option (List JsNum)
  c : Option (List JsNum)
  v : Option (List JsNum)
  errorField : Option String
deriving DecidableEq, Repr

/-- `parseFinnhubRows`: empty unless `s === "ok"` and the five price arrays
are all arrays; rows are zipped up to the shortest length (including `v` when
it is an array), with `v = 0` when the `v` member is not an array. -/
def parseFinnhubRows (json : Option FinnhubCandleJson) : List CandleRow :=
  match json with
  | none => []
  | some raw =>
    if raw.s ≠ some "ok" then []
    else
      match raw.t, raw.o, raw.h, raw.l, raw.c with
      | some t, some o, some h, some l, some c =>
        let len0 := min (min (min (min t.length o.length) h.length) l.length) c.length
        let len := match raw.v with
          | some v => min len0 v.length
          | none => len0
        (List.range len).map fun i =>
          { t := t.getD i .nonfinite
            o := o.getD i .nonfinite
            h := h.getD i .nonfinite
            l := l.getD i .nonfinite
            c := c.getD i .nonfinite
            v := match raw.v with
              | some v => v.getD i .nonfinite
              | none => .num 0 }
      | _, _, _, _, _ => []

/-- An HTTP response as the candle adapters decode it (Finnhub shape). -/
structure FinnhubCandleRes where
  ok : Bool
  status : ℕ
  json : Option FinnhubCandleJson
deriving DecidableEq, Repr

/-- `fetchFinnhubCandles`; `fetch` is the awaited network call
(`Except.error` = rejected fetch, which propagates). -/
def fetchFinnhubCandles (symbol : String) (range : RangeKey) (from_ to_ : ℚ)
    (fetch : Except String FinnhubCandleRes) : Except String CandlePayload :=
  match fetch with
  | .error m => .error m
  | .ok res =>
    if ¬res.ok then
      let err := (res.json.bind FinnhubCandleJson.errorField).getD ""
      .error (if err = "" then "Finnhub candles failed (" ++ toString res.status ++ ")" else err)
    else
      let rows := normalizeRows (parseFinnhubRows res.json) from_ to_
      if rows = [] then .error "Finnhub returned no data for selected range"
      else .ok (toPayload rows "finnhub" symbol range (finnhubResolution range))

/-- The Twelve Data time-series JSON body; `values` carries the rows, each
field already passed through the host coercions (`parseTimestamp` for `t`,
`Number(...)` for the rest). -/
structure TwelveCandleJson where
  status : Option String
  message : Option String
  values : Option (List CandleRow)
deriving DecidableEq, Repr

/-- `parseTwelveDataRows`. -/
def parseTwelveDataRows (json : Option TwelveCandleJson) : List CandleRow :=
  match json with
  | none => []
  | some raw =>
    if raw.status = some "error" then []
    else raw.values.getD []

/-- The Twelve Data HTTP response. -/
structure TwelveCandleRes where
  ok : Bool
  status : ℕ
  json : Option TwelveCandleJson
deriving DecidableEq, Repr

/-- `fetchTwelveDataCandles`. -/
def fetchTwelveDataCandles (symbol : String) (range : RangeKey) (from_ to_ : ℚ)
    (fetch : Except String TwelveCandleRes) : Except String CandlePayload :=
  match fetch with
  | .error m => .error m
  | .ok res =>
    match res.json with
    | none => .error ("Twelve Data candles failed (" ++ toString res.status ++ ")")
    | some raw =>
      if ¬res.ok then
        .error ("Twelve Data candles failed (" ++ toString res.status ++ ")")
      else if raw.status = some "error" then
        .error (raw.message.getD "Twelve Data error")
      else
        let rows := normalizeRows (parseTwelveDataRows res.json) from_ to_
        if rows = [] then .error "Twelve Data returned no data for selected range"
        else .ok (toPayload rows "twelvedata" symbol range (twelveDataInterval range))

/-- `alphaConfig` (`interval` is `none` for the daily/weekly functions). -/
def alphaConfig (range : RangeKey) : String × Option String × String :=
  match range with
  | .r24H => ("TIME_SERIES_INTRADAY", some "5min", "compact")
  | .r1W => ("TIME_SERIES_INTRADAY", some "30min", "compact")
  | .r1M => ("TIME_SERIES_INTRADAY", some "60min", "full")
  | .r3M => ("TIME_SERIES_DAILY_ADJUSTED", none, "compact")
  | .r6M => ("TIME_SERIES_DAILY_ADJUSTED", none, "full")
  | .r1Y => ("TIME_SERIES_DAILY_ADJUSTED", none, "full")
  | .r5Y => ("TIME_SERIES_WEEKLY_ADJUSTED", none, "full")

/-- The series key `alphaConfig`'s function selects in the response body. -/
def alphaSeriesKey (range : RangeKey) : String :=
  let cfg := alphaConfig range
  if cfg.1 = "TIME_SERIES_INTRADAY" then "Time Series (" ++ (cfg.2.1.getD "") ++ ")"
  else if cfg.1 = "TIME_SERIES_WEEKLY_ADJUSTED" then "Weekly Adjusted Time Series"
  else "Time Series (Daily)"

/-- The Alpha Vantage JSON body: `Note` / `Error_Message` when present and the
top-level time-series objects, keyed by their member name; each series is the
`Object.entries` row list in insertion order, rows already host-coerced
(`parseTimestamp` of the entry key for `t`, `Number(...)` of the named fields
for the rest). -/
structure AlphaJson where
  note : Option String
  errorMessage : Option String
  series : List (String × List CandleRow)
deriving DecidableEq, Repr

/-- `parseAlphaRows`: throws (models the `throw new Error(...)`s) on an empty
response, a truthy `Note` or `Error_Message`, or a missing series member. -/
def parseAlphaRows (json : Option AlphaJson) (range : RangeKey) :
    Except String (List CandleRow) :=
  match json with
  | none => .error "Alpha Vantage: empty response"
  | some raw =>
    if raw.note.getD "" ≠ "" then .error (raw.note.getD "")
    else if raw.errorMessage.getD "" ≠ "" then .error (raw.errorMessage.getD "")
    else
      match raw.series.lookup (alphaSeriesKey range) with
      | none => .error "Alpha Vantage: no time series data"
      | some rows => .ok rows

/-- The Alpha Vantage HTTP response. -/
structure AlphaCandleRes where
  ok : Bool
  status : ℕ
  json : Option AlphaJson
deriving DecidableEq, Repr

/-- `fetchAlphaVantageCandles`. -/
def fetchAlphaVantageCandles (symbol : String) (range : RangeKey) (from_ to_ : ℚ)
    (fetch : Except String AlphaCandleRes) : Except String CandlePayload :=
  match fetch with
  | .error m => .error m
  | .ok res =>
    if res.json = none ∨ ¬res.ok then
      .error ("Alpha Vantage candles failed (" ++ toString res.status ++ ")")
    else
      match parseAlphaRows res.json range with
      | .error m => .error m
      | .ok parsed =>
        let rows := normalizeRows parsed from_ to_
        if rows = [] then .error "Alpha Vantage returned no data for selected range"
        else
          let cfg := alphaConfig range
          let resolution :=
            if cfg.1 = "TIME_SERIES_WEEKLY_ADJUSTED" then "W"
            else if cfg.1 = "TIME_SERIES_INTRADAY" then cfg.2.1.getD "" else "D"
          .ok (toPayload rows "alphavantage" symbol range resolution)

/-- `CacheEntry`: expiry in epoch milliseconds plus the cached payload. -/
structure CacheEntry where
  expires : ℤ
  payload : CandlePayload
deriving DecidableEq, Repr

/-- The module-level `Map<string, CacheEntry>`. -/
def Cache := List (String × CacheEntry)

/-- `cache.get`. -/
def cacheGet (cache : Cache) (key : String) : Option CacheEntry :=
  List.lookup key cache

/-- `cache.set`: update in place, or append a fresh key. -/
def cacheSet : Cache → String → CacheEntry → Cache
  | [], key, entry => [(key, entry)]
  | (k, e) :: rest, key, entry =>
      if k = key then (k, entry) :: rest else (k, e) :: cacheSet rest key entry

/-- The environment and adapter outcomes a single `GET /candles` request
observes. -/
structure CandlesDeps where
  finnhubKey : Option String
  twelvedataKey : Option String
  alphavantageKey : Option String
  finnhubOutcome : Except String CandlePayload
  finnhubLatency : ℕ
  twelvedataOutcome : Except String CandlePayload
  twelvedataLatency : ℕ
  alphavantageOutcome : Except String CandlePayload
  alphavantageLatency : ℕ

/-- The JSON body (plus HTTP status) of a `GET /candles` response.
`cacheHit` is `none` for the 400 body, which carries no such flag;
`providers` is empty except in the aggregate 502 body. -/
structure CandlesResponse where
  status : ℕ
  payload : Option CandlePayload
  errorMsg : Option String
  providers : List (String × String)
  cacheHit : Option Bool
  attempts : List Obs.ProviderAttempt
deriving DecidableEq, Repr

/-- One provider stage of the candle fallback chain: skip when the key is
missing, otherwise succeed with an `ok` attempt or accumulate the error. -/
def tryStep (acc : List (String × String) × List Obs.ProviderAttempt) (provider : String)
    (key : Option String) (outcome : Except String CandlePayload) (latency : ℕ)
    (missingReason : String) : (CandlePayload × List Obs.ProviderAttempt) ⊕
    (List (String × String) × List Obs.ProviderAttempt) :=
  match key with
  | some _ =>
    match outcome with
    | .ok payload =>
        Sum.inl (payload, acc.2 ++ [Obs.completeAttempt provider latency .ok ""])
    | .error e =>
        Sum.inr (acc.1 ++ [(provider, e)],
          acc.2 ++ [Obs.completeAttempt provider latency .error e])
  | none =>
    Sum.inr (acc.1 ++ [(provider, missingReason)],
      acc.2 ++ [Obs.recordSkippedProviderAttempt provider missingReason])

/-- The attempt list carried by either side of a fallback-chain result
(proof-support accessor). -/
def sumAttempts : (CandlePayload × List Obs.ProviderAttempt) ⊕
    (List (String × String) × List Obs.ProviderAttempt) → List Obs.ProviderAttempt
  | .inl (_, atts) => atts
  | .inr (_, atts) => atts

/-- The sequential fallback chain of the candle handler: try Finnhub, then
Twelve Data, then Alpha Vantage, accumulating skip/error reasons and
attempts; `inl` is the first success. -/
def tryProviders (d : CandlesDeps) : (CandlePayload × List Obs.ProviderAttempt) ⊕
    (List (String × String) × List Obs.ProviderAttempt) :=
  match tryStep ([], []) "finnhub" d.finnhubKey d.finnhubOutcome d.finnhubLatency
      "FINNHUB_API_KEY missing" with
  | .inl r => .inl r
  | .inr acc1 =>
    match tryStep acc1 "twelvedata" d.twelvedataKey d.twelvedataOutcome d.twelvedataLatency
        "TWELVEDATA_API_KEY missing" with
    | .inl r => .inl r
    | .inr acc2 =>
      tryStep acc2 "alphavantage" d.alphavantageKey d.alphavantageOutcome d.alphavantageLatency
        "ALPHAVANTAGE_API_KEY missing"

/-- The `GET` handler of `/api/candles`.  `nowMs` is `Date.now()`;
`nowSec()` is its floor division by 1000.  Returns the response together
with the cache as left after the request (each provider success performs
`cache.set` before returning). -/
def candlesGET (nowMs : ℕ) (rawSymbol : String) (rawRange : Option String)
    (d : CandlesDeps) (cache : Cache) : CandlesResponse × Cache :=
  let symbol := normSymbol rawSymbol
  let range := parseRange rawRange
  if symbol = "" then
    ({ status := 400, payload := none, errorMsg := some "Missing symbol", providers := []
       cacheHit := none, attempts := [] }, cache)
  else
    let cacheKey := symbol ++ "|" ++ rangeStr range
    match cacheGet cache cacheKey with
    | some cached =>
      if (nowMs : ℤ) < cached.expires then
        ({ status := 200, payload := some cached.payload, errorMsg := none, providers := []
           cacheHit := some true, attempts := [] }, cache)
      else
        candlesMiss nowMs range cacheKey d cache
    | none => candlesMiss nowMs range cacheKey d cache
where
  /-- The cache-miss path: run the fallback chain, store any success. -/
  candlesMiss (nowMs : ℕ) (range : RangeKey) (cacheKey : String)
      (d : CandlesDeps) (cache : Cache) : CandlesResponse × Cache :=
    match tryProviders d with
    | .inl (payload, attempts) =>
      ({ status := 200, payload := some payload, errorMsg := none, providers := []
         cacheHit := some false, attempts := attempts },
       cacheSet cache cacheKey
         { expires := (nowMs : ℤ) + ttlSeconds range * 1000, payload := payload })
    | .inr (errs, attempts) =>
      ({ status := 502, payload := none
         errorMsg := some "Unable to fetch candle data from configured providers"
         providers := errs, cacheHit := some false, attempts := attempts }, cache)

end Candles

namespace Search

/-- `s.includes(sub)`: substring containment. -/
def strIncludes (s sub : String) : Bool := jsIncludes s sub

/-- `Provider` from `/api/search/route.ts`. -/
inductive Provider where
  | finnhub
  | twelvedata
deriving DecidableEq, Repr

/-- The string name of a provider. -/
def providerName : Provider → String
  | .finnhub => "finnhub"
  | .twelvedata => "twelvedata"

/-- `Candidate` (the `type` field is spelled `type_`, `type` being a Lean
keyword). -/
structure Candidate where
  symbol : String
  displaySymbol : String
  description : String
  type_ : String
  exchange : String
  provider : Provider
deriving DecidableEq, Repr

/-- `RankedCandidate`. -/
structure RankedCandidate where
  symbol : String
  displaySymbol : String
  description : String
  type_ : String
  exchange : String
  provider : Provider
  score : ℤ
  companyKey : String
deriving DecidableEq, Repr

/-- `SearchItem`. -/
structure SearchItem where
  symbol : String
  displaySymbol : String
  description : String
  type_ : String
deriving DecidableEq, Repr

/-- `BLOCKED_TYPE_HINTS`. -/
def BLOCKED_TYPE_HINTS : List String :=
  ["forex", "currency", "crypto", "index", "future", "option", "bond", "warrant", "cfd"]

/-- `LOW_PRIORITY_HINTS`. -/
def LOW_PRIORITY_HINTS : List String :=
  ["leveraged", "inverse", "ultra", "short", "3x", "2x", "-1x", "-2x", "daily x",
   "daily short"]

/-- `PREFERRED_EXCHANGE_BONUS`. -/
def PREFERRED_EXCHANGE_BONUS : List (String × ℤ) :=
  [("NASDAQ", 62), ("NYSE", 60), ("AMEX", 52), ("XETR", 48), ("LSE", 46), ("EURONEXT", 45),
   ("SIX", 44), ("TSE", 43), ("HKEX", 42), ("SSE", 40), ("SZSE", 40), ("NSE", 39),
   ("BSE", 39), ("TSX", 38), ("ASX", 38)]

/-- `CORPORATE_SUFFIXES` (a `Set` used only for membership). -/
def CORPORATE_SUFFIXES : List String :=
  ["inc", "incorporated", "corp", "corporation", "co", "company", "group", "holdings",
   "holding", "limited", "ltd", "plc", "ag", "sa", "nv", "se", "spa", "srl", "llc",
   "pte", "the"]

/-- `POPULAR_STOCK_HINTS`. -/
def POPULAR_STOCK_HINTS : List (String × List String) :=
  [("AAPL", ["apple", "apple inc"]),
   ("MSFT", ["microsoft", "microsoft corp", "microsoft corporation"]),
   ("GOOGL", ["google", "alphabet", "alphabet inc"]),
   ("AMZN", ["amazon", "amazon com", "amazon.com"]),
   ("NVDA", ["nvidia", "nvidia corp", "nvidia corporation"]),
   ("TSLA", ["tesla", "tesla inc"]),
   ("META", ["meta", "meta platforms", "facebook"]),
   ("NFLX", ["netflix"]),
   ("BRK.B", ["berkshire", "berkshire hathaway"]),
   ("JPM", ["jpmorgan", "jpmorgan chase"])]

/-- `cleanQuery`. -/
def cleanQuery (raw : Option String) : String := jsTrim (raw.getD "")

/-- `parseLimit`: `Number(raw ?? "10")` supplied as a `JsNum` (a missing
parameter coerces to 10); non-finite falls back to 10, otherwise
`min(max(floor(n), 1), 25)`. -/
def parseLimit (raw : Option JsNum) : ℕ :=
  match raw.getD (JsNum.num 10) with
  | .num q => (min (max ⌊q⌋ 1) 25).toNat
  | .nonfinite => 10

/-- A lowercase-alphanumeric character (the class `[a-z0-9]`). -/
def isLowerAlnumChar (c : Char) : Bool :=
  (decide ('a' ≤ c) && decide (c ≤ 'z')) || (decide ('0' ≤ c) && decide (c ≤ '9'))

/-- An uppercase-alphanumeric character (the class `[A-Z0-9]`). -/
def isUpperAlnumChar (c : Char) : Bool :=
  (decide ('A' ≤ c) && decide (c ≤ 'Z')) || (decide ('0' ≤ c) && decide (c ≤ '9'))

/-- `normalizeText`: lowercase, replace every maximal run of characters
outside `[a-z0-9]` by a single space, trim.  (`normalize("NFKD")` and the
combining-mark strip are the identity on the ASCII alphabet modelled here.) -/
def normalizeText (value : String) : String :=
  let mapped : List Char :=
    (jsToLower value).data.map (fun c => if isLowerAlnumChar c then c else ' ')
  joinSpace (((splitOnChar ' ' mapped).map String.mk).filter (fun w => w != ""))

/-- `normalizeExchange`. -/
def normalizeExchange (value : String) : String := normSymbol value

/-- `sanitizeSymbol`: trim + uppercase, keep the part after the last `":"`,
drop all whitespace. -/
def sanitizeSymbol (value : String) : String :=
  let symbol := normSymbol value
  if symbol = "" then ""
  else
    let afterColon :=
      if strIncludes symbol ":" then ((jsSplitOn ':' symbol).getLast?).getD symbol
      else symbol
    ⟨afterColon.data.filter (fun c => !c.isWhitespace)⟩

/-- `symbolBase`: the portion before the first `"."` of the sanitized
symbol. -/
def symbolBase (symbol : String) : String :=
  let s := sanitizeSymbol symbol
  (jsSplitOn '.' s).headD s

/-- `isTickerLikeQuery`: the regex `^[A-Z0-9]{1,6}(\.[A-Z0-9]{1,4})?$` on the
trimmed, uppercased query. -/
def isTickerLikeQuery (query : String) : Bool :=
  let q := normSymbol query
  match jsSplitOn '.' q with
  | [a] =>
      decide (1 ≤ a.length) && decide (a.length ≤ 6) && a.toList.all isUpperAlnumChar
  | [a, b] =>
      decide (1 ≤ a.length) && decide (a.length ≤ 6) && a.toList.all isUpperAlnumChar &&
        decide (1 ≤ b.length) && decide (b.length ≤ 4) && b.toList.all isUpperAlnumChar
  | _ => false

/-- `stockTypeAllowed`. -/
def stockTypeAllowed (type_ description : String) : Bool :=
  let t := normalizeText type_
  let d := normalizeText description
  if t = "" then !(BLOCKED_TYPE_HINTS.any (fun hint => strIncludes d hint))
  else if BLOCKED_TYPE_HINTS.any (fun hint => strIncludes t hint) then false
  else
    strIncludes t "stock" || strIncludes t "equity" || strIncludes t "share" ||
      strIncludes t "adr" || strIncludes t "etf" || strIncludes t "etp" ||
      strIncludes t "reit"

/-- `normalizeCompanyName`: normalized description with trailing corporate
suffixes stripped. -/
def normalizeCompanyName (description : String) : String :=
  let normalized := normalizeText description
  if normalized = "" then ""
  else
    let tokens := (jsSplitOn ' ' normalized).filter (fun tk => tk != "")
    let stripped := (tokens.reverse.dropWhile (fun tk => CORPORATE_SUFFIXES.contains tk)).reverse
    joinSpace stripped

/-- `makeCompanyKey`. -/
def makeCompanyKey (description symbol : String) : String :=
  let byName := normalizeCompanyName description
  if 3 ≤ byName.length then "name:" ++ byName else "symbol:" ++ symbolBase symbol

/-- `exchangeBonus`. -/
def exchangeBonus (exchange : String) : ℤ :=
  let ex := normalizeExchange exchange
  if ex = "" then 0 else (PREFERRED_EXCHANGE_BONUS.lookup ex).getD 22

/-- The per-alias boost inside `popularHintBoost` (the loop keeps a running
`Math.max`; the `continue`s after the first two branches never skip a larger
bonus). -/
def aliasBoost (queryNorm aliasNorm : String) : ℤ :=
  if aliasNorm = "" then 0
  else if aliasNorm = queryNorm then 1400
  else if jsStartsWith aliasNorm queryNorm ∧ 2 ≤ queryNorm.length then 980
  else if jsStartsWith queryNorm aliasNorm ∧ 3 ≤ aliasNorm.length then 520
  else 0

/-- `popularHintBoost`. -/
def popularHintBoost (symbol : String) (queryNorm : String) : ℤ :=
  if queryNorm = "" ∨ queryNorm.length < 2 then 0
  else
    let base := symbolBase symbol
    POPULAR_STOCK_HINTS.foldl
      (fun boost hint =>
        if symbolBase hint.1 ≠ base then boost
        else hint.2.foldl (fun b a => max b (aliasBoost queryNorm (normalizeText a))) boost)
      0

/-- `scoreCandidate`: the sum of the bonuses and penalties, in source
order. -/
def scoreCandidate (item : Candidate) (query : String) : ℤ :=
  let qUpper := normSymbol query
  let qNorm := normalizeText query
  let symbol := item.symbol
  let display := jsToUpper item.displaySymbol
  let desc := normalizeText item.description
  let descWords := (jsSplitOn ' ' desc).filter (fun w => w != "")
  let qWords := (jsSplitOn ' ' qNorm).filter (fun w => w != "")
  let wholeWordMatch : Bool := descWords.contains qNorm
  let wordPrefixMatch : Bool :=
    decide (3 ≤ qNorm.length) && descWords.any (fun w => jsStartsWith w qNorm)
  let symbolScore : ℤ :=
    if symbol = qUpper ∨ display = qUpper then 1500
    else if jsStartsWith symbol qUpper ∨ jsStartsWith display qUpper then 1050
    else if symbolBase symbol = qUpper then 980
    else if (strIncludes symbol qUpper ∨ strIncludes display qUpper) ∧ 2 ≤ qUpper.length
      then 500
    else 0
  let exactDescScore : ℤ := if desc = qNorm then 980 else 0
  let descStartScore : ℤ :=
    if desc = qNorm ∨ jsStartsWith desc (qNorm ++ " ") then 760
    else if jsStartsWith desc qNorm ∧ 3 ≤ qNorm.length then 620
    else 0
  let wholeWordScore : ℤ := if wholeWordMatch then 300 else 0
  let wordPrefixScore : ℤ := if wordPrefixMatch then 170 else 0
  let multiWordScore : ℤ :=
    if 1 < qWords.length then
      if qWords.all (fun token => descWords.any (fun w => jsStartsWith w token)) then 520
      else if qWords.any (fun token => strIncludes desc token) then 120
      else 0
    else 0
  let substringPenalty : ℤ :=
    if ¬wholeWordMatch ∧ ¬wordPrefixMatch ∧ 4 ≤ qNorm.length ∧ strIncludes desc qNorm
      then -220
    else 0
  let providerScore : ℤ := if item.provider = Provider.finnhub then 26 else 18
  let typeNorm := normalizeText item.type_
  let typeScore : ℤ :=
    (if strIncludes typeNorm "common stock" then 35 else 0) +
      (if strIncludes typeNorm "stock" then 18 else 0) +
      (if strIncludes typeNorm "adr" then 8 else 0)
  let dotScore : ℤ := if strIncludes symbol "." then 4 else 0
  let nameLength := descWords.length
  let lengthPenalty : ℤ :=
    (if 6 < nameLength then -(((nameLength : ℤ) - 6) * 18) else 0) +
      (if 10 < nameLength then -35 else 0)
  let lowPriorityText := typeNorm ++ " " ++ desc
  let lowPriorityPenalty : ℤ :=
    if LOW_PRIORITY_HINTS.any (fun hint => strIncludes lowPriorityText hint) then -420 else 0
  symbolScore + exactDescScore + descStartScore + wholeWordScore + wordPrefixScore +
    multiWordScore + substringPenalty + exchangeBonus item.exchange + providerScore +
    popularHintBoost item.symbol qNorm + typeScore + dotScore + lengthPenalty +
    lowPriorityPenalty

/-- `formatType`. -/
def formatType (type_ exchange : String) : String :=
  let base := if jsTrim type_ = "" then "stock" else jsTrim type_
  let ex := normalizeExchange exchange
  if ex = "" then base else base ++ " · " ++ ex

/-- `sanitizeCandidate`. -/
def sanitizeCandidate (item : Candidate) : Option Candidate :=
  let symbol := sanitizeSymbol item.symbol
  let description := jsTrim item.description
  let ds := sanitizeSymbol (if item.displaySymbol = "" then symbol else item.displaySymbol)
  let displaySymbol := if ds = "" then symbol else ds
  let type_ := if jsTrim item.type_ = "" then "stock" else jsTrim item.type_
  let exchange := normalizeExchange item.exchange
  if symbol = "" ∨ description = "" then none
  else if strIncludes symbol "/" then none
  else if ¬stockTypeAllowed type_ description then none
  else
    some { symbol := symbol, displaySymbol := displaySymbol, description := description
           type_ := type_, exchange := exchange, provider := item.provider }

/-- The map step of `rankAndDeduplicate`: attach score and company key. -/
def toRanked (query : String) (item : Candidate) : RankedCandidate :=
  { symbol := item.symbol
    displaySymbol := item.displaySymbol
    description := item.description
    type_ := item.type_
    exchange := item.exchange
    provider := item.provider
    score := scoreCandidate item query
    companyKey := makeCompanyKey item.description item.symbol }

/-- The comparator `(a, b) => b.score - a.score`: `a` sorts (stably) before
`b` when its score is at least as large. -/
def scoreDesc (a b : RankedCandidate) : Prop := b.score ≤ a.score

instance : DecidableRel scoreDesc := by
  intro a b
  unfold scoreDesc
  infer_instance

instance : IsTotal RankedCandidate scoreDesc := ⟨fun a b => le_total b.score a.score⟩

instance : IsTrans RankedCandidate scoreDesc := ⟨fun _ _ _ hab hbc => le_trans hbc hab⟩

/-- One step of the `byCompany` map build: a JS `Map.set` updates an existing
key in place (keeping only the strictly higher-scoring candidate) and appends
a new key at the end. -/
def upsertByCompany : List (String × RankedCandidate) → RankedCandidate →
    List (String × RankedCandidate)
  | [], item => [(item.companyKey, item)]
  | (k, existing) :: rest, item =>
      if k = item.companyKey then
        (k, if existing.score < item.score then item else existing) :: rest
      else (k, existing) :: upsertByCompany rest item

/-- `applyScoreCutoff`. -/
def applyScoreCutoff (sorted : List RankedCandidate) (query : String) (limit : ℕ) :
    List RankedCandidate :=
  match sorted with
  | [] => []
  | [single] => [single]
  | top :: second :: rest =>
    let full := top :: second :: rest
    let lead := top.score - second.score
    let tickerQuery := isTickerLikeQuery query
    if ¬(tickerQuery = true) ∧ 500 ≤ lead then
      (full.filter (fun it => decide (top.score - 160 ≤ it.score))).take limit
    else
      let minScore :=
        if tickerQuery then max (top.score - 520) 90 else max (top.score - 340) 180
      let filtered := full.filter (fun it => decide (minScore ≤ it.score))
      if min limit 3 ≤ filtered.length then filtered.take limit
      else full.take limit

/-- The output projection of the final loop. -/
def toSearchItem (item : RankedCandidate) : SearchItem :=
  { symbol := item.symbol
    displaySymbol := if item.displaySymbol = "" then item.symbol else item.displaySymbol
    description := item.description
    type_ := formatType item.type_ item.exchange }

/-- The final loop of `rankAndDeduplicate`: skip symbols already seen, emit
the projection, stop once `limit` items have been pushed. -/
def dedupeBySymbol (limit : ℕ) : List RankedCandidate → List String → ℕ → List SearchItem
  | [], _, _ => []
  | item :: rest, seen, count =>
    if seen.contains item.symbol then dedupeBySymbol limit rest seen count
    else
      let out := toSearchItem item
      if limit ≤ count + 1 then [out]
      else out :: dedupeBySymbol limit rest (item.symbol :: seen) (count + 1)

/-- `rankAndDeduplicate`. -/
def rankAndDeduplicate (candidates : List Candidate) (query : String) (limit : ℕ) :
    List SearchItem :=
  let ranked := List.insertionSort scoreDesc (candidates.map (toRanked query))
  let byCompany := ranked.foldl upsertByCompany []
  let dedupedByCompany := List.insertionSort scoreDesc (byCompany.map Prod.snd)
  let filteredByQuality := applyScoreCutoff dedupedByCompany query limit
  dedupeBySymbol limit filteredByQuality [] 0

/-- The environment and adapter outcomes a single `GET /search` request
observes. -/
structure SearchDeps where
  finnhubKey : Option String
  twelvedataKey : Option String
  finnhubOutcome : Except String (List Candidate)
  finnhubLatency : ℕ
  twelvedataOutcome : Except String (List Candidate)
  twelvedataLatency : ℕ

/-- The JSON body (plus HTTP status) of a `GET /search` response.  `hasMeta`
records whether the body carries a `meta` member (the empty-query body does
not); `providers` is empty except in the 502 bodies. -/
structure SearchResponse where
  status : ℕ
  result : List SearchItem
  errorMsg : Option String
  providers : List (String × String)
  hasMeta : Bool
  attempts : List Obs.ProviderAttempt
deriving DecidableEq, Repr

/-- The `GET` handler of `/api/search`: empty query short-circuits; otherwise
one concurrent task per configured provider (skips recorded inline), results
merged, sanitized, ranked; the 502 body is produced only when no task exists
or the result is empty and no provider succeeded. -/
def searchGET (rawQuery : Option String) (rawLimit : Option JsNum) (d : SearchDeps) :
    SearchResponse :=
  let query := cleanQuery rawQuery
  let limit := parseLimit rawLimit
  if query = "" then
    { status := 200, result := [], errorMsg := none, providers := [], hasMeta := false
      attempts := [] }
  else
    let tasks : List (String × Except String (List Candidate) × ℕ) :=
      (match d.finnhubKey with
       | some _ => [("finnhub", d.finnhubOutcome, d.finnhubLatency)]
       | none => []) ++
      (match d.twelvedataKey with
       | some _ => [("twelvedata", d.twelvedataOutcome, d.twelvedataLatency)]
       | none => [])
    let preErrs : List (String × String) :=
      (match d.finnhubKey with
       | some _ => []
       | none => [("finnhub", "FINNHUB_API_KEY missing")]) ++
      (match d.twelvedataKey with
       | some _ => []
       | none => [("twelvedata", "TWELVEDATA_API_KEY missing")])
    let preAttempts : List Obs.ProviderAttempt :=
      (match d.finnhubKey with
       | some _ => []
       | none => [Obs.recordSkippedProviderAttempt "finnhub" "FINNHUB_API_KEY missing"]) ++
      (match d.twelvedataKey with
       | some _ => []
       | none => [Obs.recordSkippedProviderAttempt "twelvedata" "TWELVEDATA_API_KEY missing"])
    if tasks.isEmpty then
      { status := 502, result := [], errorMsg := some "Search provider unavailable"
        providers := preErrs, hasMeta := true, attempts := preAttempts }
    else
      let settledAttempts := tasks.map fun t =>
        match t.2.1 with
        | .ok _ => Obs.completeAttempt t.1 t.2.2 .ok ""
        | .error e => Obs.completeAttempt t.1 t.2.2 .error e
      let settleErrs := tasks.filterMap fun t =>
        match t.2.1 with
        | .ok _ => none
        | .error e => some (t.1, e)
      let providerSucceeded := tasks.any fun t =>
        match t.2.1 with
        | .ok _ => true
        | .error _ => false
      let allCandidates := tasks.foldl
        (fun acc t =>
          match t.2.1 with
          | .ok items => acc ++ items
          | .error _ => acc) []
      let sanitized := allCandidates.filterMap sanitizeCandidate
      let result := rankAndDeduplicate sanitized query limit
      if result ≠ [] ∨ providerSucceeded then
        { status := 200, result := result, errorMsg := none, providers := [], hasMeta := true
          attempts := preAttempts ++ settledAttempts }
      else
        { status := 502, result := [], errorMsg := some "Search provider unavailable"
          providers := preErrs ++ settleErrs, hasMeta := true
          attempts := preAttempts ++ settledAttempts }

end Search

/-! ### Concrete instances used by counterexamples and witnesses -/

/-- A 301-character error message, as an upstream provider might return. -/
def longMsg : String := String.mk (List.replicate 301 'a')

/-- Stocks deps: Finnhub configured and failing with `longMsg`, Twelve Data
not configured. -/
def stocksDepsLong : Stocks.StocksDeps :=
  { finnhubKey := some "k", twelvedataKey := none
    finnhubOutcome := .error longMsg, finnhubLatency := 5
    twelvedataOutcome := .error "unused", twelvedataLatency := 0 }

/-- A valid Finnhub quote response. -/
def goodFinnhubQuoteRes : Stocks.FinnhubQuoteRes :=
  { ok := true, status := 200
    json := some
      { errorField := none, c := .num 5, d := .num 1, dp := .num 1, h := .num 6
        l := .num 4, o := .num 5, pc := .num 4, t := .num 100 } }

/-- A valid Twelve Data quote body. -/
def goodTwelveQuoteJson : Stocks.TwelveQuoteJson :=
  { status := none, message := none, close := .num 10, change := .num 1
    percentChange := .num 2, high := .num 11, low := .num 9, open_ := .num 9
    previousClose := .num 9, timestamp := .num 1000, name := some "Apple Inc"
    exchange := some "NASDAQ", currency := some "USD", country := some "US" }

/-- The payload `fetchFromTwelveData` produces from `goodTwelveQuoteJson`. -/
def goodTwelvePayload : Stocks.StockPayload :=
  { quote := { c := 10, d := 1, dp := 2, h := 11, l := 9, o := 9, pc := 9, t := 1000 }
    profile := some
      ⟨[("ticker", "AAPL"), ("name", "Apple Inc"), ("exchange", "NASDAQ"),
        ("currency", "USD"), ("country", "US")]⟩
    provider := "twelvedata" }

/-- Stocks deps for the fallback scenario: Finnhub configured but failing,
Twelve Data configured and producing `goodTwelvePayload`. -/
def stocksDepsFallback : Stocks.StocksDeps :=
  { finnhubKey := some "k", twelvedataKey := some "t"
    finnhubOutcome := .error "boom", finnhubLatency := 3
    twelvedataOutcome := Stocks.fetchFromTwelveData 0 "AAPL" (.ok ⟨true, 200, some goodTwelveQuoteJson⟩)
    twelvedataLatency := 4 }

/-- Candle deps with no provider configured (used where the deps are
irrelevant). -/
def candlesDepsNone : Candles.CandlesDeps :=
  { finnhubKey := none, twelvedataKey := none, alphavantageKey := none
    finnhubOutcome := .error "unused", finnhubLatency := 0
    twelvedataOutcome := .error "unused", twelvedataLatency := 0
    alphavantageOutcome := .error "unused", alphavantageLatency := 0 }

/-- Finnhub candle body with two rows sharing one timestamp. -/
def dupRowsJson : Candles.FinnhubCandleJson :=
  { s := some "ok", t := some [.num 999990, .num 999990], o := some [.num 1, .num 1]
    h := some [.num 2, .num 2], l := some [.num 1, .num 1], c := some [.num 1, .num 1]
    v := some [.num 3, .num 3], errorField := none }

/-- Candle deps: Finnhub configured and serving `dupRowsJson` for the 3M
window computed at `nowSec = 1000000`. -/
def candlesDepsDup : Candles.CandlesDeps :=
  { finnhubKey := some "k", twelvedataKey := none, alphavantageKey := none
    finnhubOutcome := Candles.fetchFinnhubCandles "AAPL" .r3M (-6776000) 1000000
      (.ok { ok := true, status := 200, json := some dupRowsJson })
    finnhubLatency := 1
    twelvedataOutcome := .error "unused", twelvedataLatency := 0
    alphavantageOutcome := .error "unused", alphavantageLatency := 0 }

/-- Finnhub candle body with one valid row, used with a non-2xx status. -/
def badStatusRowsJson : Candles.FinnhubCandleJson :=
  { s := some "ok", t := some [.num 5], o := some [.num 1], h := some [.num 2]
    l := some [.num 1], c := some [.num 1], v := some [.num 3], errorField := none }

/-- Search deps: Finnhub configured and failing, Twelve Data not
configured. -/
def searchDepsFail : Search.SearchDeps :=
  { finnhubKey := some "k", twelvedataKey := none
    finnhubOutcome := .error "rate limited", finnhubLatency := 2
    twelvedataOutcome := .error "unused", twelvedataLatency := 0 }

/-- Twenty observability records for one (route, provider) group with
latencies 1..20. -/
def obsRecords20 : List Obs.ProviderRecord :=
  (List.range 20).map fun i =>
    { provider := "p", status := .ok, latencyMs := i + 1, error := none
      requestId := "r", route := "rt", atIso := "" }

/-! ### Theorems -/

theorem sliceTo_length_le (s : String) (n : ℕ) : (sliceTo s n).length ≤ n := by
  have h : (sliceTo s n).length = (s.data.take n).length := rfl
  rw [h, List.length_take]
  exact Nat.min_le_left _ _

namespace Candles

/-- Helper: the cache-miss path only produces statuses 200 and 502. -/
theorem candlesMiss_status (nowMs : ℕ) (range : RangeKey) (cacheKey : String)
    (d : CandlesDeps) (cache : Cache) :
    (candlesGET.candlesMiss nowMs range cacheKey d cache).1.status = 200 ∨
      (candlesGET.candlesMiss nowMs range cacheKey d cache).1.status = 502 := by
  unfold candlesGET.candlesMiss
  rcases h : tryProviders d with ⟨p, a⟩ | ⟨e, a⟩ <;> simp [h]

/-- Helper: a 400 status happens exactly for a missing symbol. -/
theorem candlesGET_status_400 (nowMs : ℕ) (rawSymbol : String) (rawRange : Option String)
    (d : CandlesDeps) (cache : Cache) :
    (candlesGET nowMs rawSymbol rawRange d cache).1.status = 400 ↔
      normSymbol rawSymbol = "" := by
  by_cases hs : normSymbol rawSymbol = ""
  · simp [candlesGET, hs]
  · simp only [candlesGET, if_neg hs]
    rcases hc : cacheGet cache (normSymbol rawSymbol ++ "|" ++ rangeStr (parseRange rawRange))
      with _ | entry
    · rcases candlesMiss_status nowMs (parseRange rawRange)
        (normSymbol rawSymbol ++ "|" ++ rangeStr (parseRange rawRange)) d cache with h3 | h3 <;>
        simp [hc, h3, hs]
    · by_cases ht : (nowMs : ℤ) < entry.expires
      · simp [hc, ht, hs]
      · rcases candlesMiss_status nowMs (parseRange rawRange)
          (normSymbol rawSymbol ++ "|" ++ rangeStr (parseRange rawRange)) d cache with h3 | h3 <;>
          simp [hc, ht, h3, hs]

/-- Helper: the handler's status is always 400, 200 or 502. -/
theorem candlesGET_status_cases (nowMs : ℕ) (rawSymbol : String) (rawRange : Option String)
    (d : CandlesDeps) (cache : Cache) :
    (candlesGET nowMs rawSymbol rawRange d cache).1.status = 400 ∨
      (candlesGET nowMs rawSymbol rawRange d cache).1.status = 200 ∨
      (candlesGET nowMs rawSymbol rawRange d cache).1.status = 502 := by
  by_cases hs : normSymbol rawSymbol = ""
  · simp [candlesGET, hs]
  · simp only [candlesGET, if_neg hs]
    rcases hc : cacheGet cache (normSymbol rawSymbol ++ "|" ++ rangeStr (parseRange rawRange))
      with _ | entry
    · rcases candlesMiss_status nowMs (parseRange rawRange)
        (normSymbol rawSymbol ++ "|" ++ rangeStr (parseRange rawRange)) d cache with h3 | h3 <;>
        simp [hc, h3]
    · by_cases ht : (nowMs : ℤ) < entry.expires
      · simp [hc, ht]
      · rcases candlesMiss_status nowMs (parseRange rawRange)
          (normSymbol rawSymbol ++ "|" ++ rangeStr (parseRange rawRange)) d cache with h3 | h3 <;>
          simp [hc, ht, h3]

end Candles

/-- C10: the candle route's range parameter never causes a rejection: a
missing range parses to `3M`, the aliases `1D`/`3H` map to `24H` and `YTD`
(after trimming and uppercasing) to `1Y`, any string missing from the alias
table falls back to `3M`, and the handler returns a 400-class status exactly
when the (trimmed, uppercased) symbol is missing — never because of the
range. -/
theorem range_never_rejected :
    Candles.parseRange none = Candles.RangeKey.r3M ∧
    Candles.parseRange (some "1D") = Candles.RangeKey.r24H ∧
    Candles.parseRange (some "3H") = Candles.RangeKey.r24H ∧
    Candles.parseRange (some " ytd ") = Candles.RangeKey.r1Y ∧
    (∀ s : String, Candles.RANGE_ALIASES.lookup (normSymbol s) = none →
      Candles.parseRange (some s) = Candles.RangeKey.r3M) ∧
    (∀ (nowMs : ℕ) (rawSymbol : String) (rawRange : Option String)
        (d : Candles.CandlesDeps) (cache : Candles.Cache),
      (400 ≤ (Candles.candlesGET nowMs rawSymbol rawRange d cache).1.status ∧
          (Candles.candlesGET nowMs rawSymbol rawRange d cache).1.status < 500) ↔
        normSymbol rawSymbol = "") := by
  refine ⟨by decide, by decide, by decide, by decide, ?_, ?_⟩
  · intro s h
    simp [Candles.parseRange, h]
  · intro nowMs rawSymbol rawRange d cache
    constructor
    · intro ⟨h1, h2⟩
      rcases Candles.candlesGET_status_cases nowMs rawSymbol rawRange d cache with h | h | h
      · exact (Candles.candlesGET_status_400 nowMs rawSymbol rawRange d cache).1 h
      · omega
      · omega
    · intro hs
      have h := (Candles.candlesGET_status_400 nowMs rawSymbol rawRange d cache).2 hs
      omega

/-- Helper: the error field of a completed attempt is at most 300 chars. -/
theorem completeAttempt_error_le (p : String) (lat : ℕ) (st : Obs.AttemptStatus)
    (msg : String) : ∀ e, (Obs.completeAttempt p lat st msg).error = some e →
      e.length ≤ 300 := by
  intro e he
  by_cases h : st = Obs.AttemptStatus.error
  · simp [Obs.completeAttempt, h, Obs.sanitizeErrorMessage] at he
    rw [← he]
    exact sliceTo_length_le msg 300
  · simp [Obs.completeAttempt, h] at he

/-- Helper: the error field of a skipped attempt is at most 300 chars. -/
theorem skippedAttempt_error_le (p reason : String) :
    ∀ e, (Obs.recordSkippedProviderAttempt p reason).error = some e → e.length ≤ 300 := by
  intro e he
  simp [Obs.recordSkippedProviderAttempt] at he
  rw [← he]
  exact sliceTo_length_le reason 300

/-- Helper: every attempt the stock handler emits has a bounded error. -/
theorem stocksGET_attempts_bounded (rawSymbol : String) (d : Stocks.StocksDeps) :
    ∀ a ∈ (Stocks.stocksGET rawSymbol d).attempts, ∀ e, a.error = some e →
      e.length ≤ 300 := by
  intro a ha
  by_cases hs : normSymbol rawSymbol = ""
  · simp [Stocks.stocksGET, hs] at ha
  · rcases hfk : d.finnhubKey with _ | k
    · rcases htk : d.twelvedataKey with _ | k2
      · simp [Stocks.stocksGET, hs, hfk, htk] at ha
        rcases ha with ha | ha <;> subst ha <;> exact skippedAttempt_error_le _ _
      · rcases hto : d.twelvedataOutcome with e2 | p2 <;>
          simp [Stocks.stocksGET, hs, hfk, htk, hto] at ha <;>
          rcases ha with ha | ha <;> subst ha <;>
          first
            | exact skippedAttempt_error_le _ _
            | exact completeAttempt_error_le _ _ _ _
    · rcases hfo : d.finnhubOutcome with e1 | p1
      · rcases htk : d.twelvedataKey with _ | k2
        · simp [Stocks.stocksGET, hs, hfk, hfo, htk] at ha
          rcases ha with ha | ha <;> subst ha <;>
            first
              | exact skippedAttempt_error_le _ _
              | exact completeAttempt_error_le _ _ _ _
        · rcases hto : d.twelvedataOutcome with e2 | p2 <;>
            simp [Stocks.stocksGET, hs, hfk, hfo, htk, hto] at ha <;>
            rcases ha with ha | ha <;> subst ha <;>
            exact completeAttempt_error_le _ _ _ _
      · simp [Stocks.stocksGET, hs, hfk, hfo] at ha
        subst ha
        exact completeAttempt_error_le _ _ _ _

/-- Helper: `tryStep` preserves boundedness of the accumulated attempts. -/
theorem tryStep_attempts_bounded (acc : List (String × String) × List Obs.ProviderAttempt)
    (prov : String) (key : Option String) (outcome : Except String Candles.CandlePayload)
    (lat : ℕ) (miss : String)
    (hacc : ∀ a ∈ acc.2, ∀ e, a.error = some e → e.length ≤ 300) :
    ∀ a ∈ Candles.sumAttempts (Candles.tryStep acc prov key outcome lat miss),
      ∀ e, a.error = some e → e.length ≤ 300 := by
  intro a ha
  rcases key with _ | k <;> rcases outcome with e1 | p1 <;>
    simp [Candles.tryStep, Candles.sumAttempts] at ha <;>
    rcases ha with ha | ha <;>
    first
      | exact hacc a ha
      | (subst ha;
         first
           | exact skippedAttempt_error_le _ _
           | exact completeAttempt_error_le _ _ _ _)

/-- Helper: every attempt the candle fallback chain emits has a bounded
error. -/
theorem tryProviders_attempts_bounded (d : Candles.CandlesDeps) :
    ∀ a ∈ Candles.sumAttempts (Candles.tryProviders d),
      ∀ e, a.error = some e → e.length ≤ 300 := by
  have h1 := tryStep_attempts_bounded ([], []) "finnhub" d.finnhubKey d.finnhubOutcome
    d.finnhubLatency "FINNHUB_API_KEY missing" (by simp)
  unfold Candles.tryProviders
  rcases hs1 : Candles.tryStep ([], []) "finnhub" d.finnhubKey d.finnhubOutcome
      d.finnhubLatency "FINNHUB_API_KEY missing" with r1 | acc1
  · rw [hs1] at h1
    simpa using h1
  · rw [hs1] at h1
    simp only [hs1]
    have h2 := tryStep_attempts_bounded acc1 "twelvedata" d.twelvedataKey
      d.twelvedataOutcome d.twelvedataLatency "TWELVEDATA_API_KEY missing"
      (by simpa [Candles.sumAttempts] using h1)
    rcases hs2 : Candles.tryStep acc1 "twelvedata" d.twelvedataKey d.twelvedataOutcome
        d.twelvedataLatency "TWELVEDATA_API_KEY missing" with r2 | acc2
    · rw [hs2] at h2
      simpa using h2
    · rw [hs2] at h2
      simp only [hs2]
      have h3 := tryStep_attempts_bounded acc2 "alphavantage" d.alphavantageKey
        d.alphavantageOutcome d.alphavantageLatency "ALPHAVANTAGE_API_KEY missing"
        (by simpa [Candles.sumAttempts] using h2)
      simpa using h3

/-- Helper: every attempt the candle handler emits has a bounded error. -/
theorem candlesGET_attempts_bounded (nowMs : ℕ) (rawSymbol : String)
    (rawRange : Option String) (d : Candles.CandlesDeps) (cache : Candles.Cache) :
    ∀ a ∈ (Candles.candlesGET nowMs rawSymbol rawRange d cache).1.attempts,
      ∀ e, a.error = some e → e.length ≤ 300 := by
  intro a ha
  by_cases hs : normSymbol rawSymbol = ""
  · simp [Candles.candlesGET, hs] at ha
  · simp only [Candles.candlesGET, if_neg hs] at ha
    have hmiss : ∀ a ∈ (Candles.candlesGET.candlesMiss nowMs (Candles.parseRange rawRange)
        (normSymbol rawSymbol ++ "|" ++ Candles.rangeStr (Candles.parseRange rawRange)) d
        cache).1.attempts, ∀ e, a.error = some e → e.length ≤ 300 := by
      intro a2 ha2
      have htb := tryProviders_attempts_bounded d
      unfold Candles.candlesGET.candlesMiss at ha2
      rcases htp : Candles.tryProviders d with ⟨p, atts⟩ | ⟨errs, atts⟩ <;>
        rw [htp] at ha2 htb <;> simp at ha2 <;>
        exact htb a2 (by simpa [Candles.sumAttempts] using ha2)
    rcases hc : Candles.cacheGet cache
        (normSymbol rawSymbol ++ "|" ++ Candles.rangeStr (Candles.parseRange rawRange))
      with _ | entry
    · rw [hc] at ha
      exact hmiss a ha
    · rw [hc] at ha
      by_cases ht : (nowMs : ℤ) < entry.expires
      · simp [ht] at ha
      · simp only [if_neg ht] at ha
        exact hmiss a ha

/-- Helper: `rankAndDeduplicate` of no candidates is empty. -/
theorem rankAndDeduplicate_nil (query : String) (limit : ℕ) :
    Search.rankAndDeduplicate [] query limit = [] := rfl

/-- Helper: every attempt the search handler emits has a bounded error. -/
theorem searchGET_attempts_bounded (rawQuery : Option String) (rawLimit : Option JsNum)
    (d : Search.SearchDeps) :
    ∀ a ∈ (Search.searchGET rawQuery rawLimit d).attempts, ∀ e, a.error = some e →
      e.length ≤ 300 := by
  intro a ha
  by_cases hq : Search.cleanQuery rawQuery = ""
  · simp [Search.searchGET, hq] at ha
  · rcases hfk : d.finnhubKey with _ | k
    · rcases htk : d.twelvedataKey with _ | k2
      · simp [Search.searchGET, hq, hfk, htk] at ha
        rcases ha with ha | ha <;> subst ha <;> exact skippedAttempt_error_le _ _
      · rcases hto : d.twelvedataOutcome with e2 | p2 <;>
          simp [Search.searchGET, hq, hfk, htk, hto, rankAndDeduplicate_nil] at ha <;>
          rcases ha with ha | ha <;> subst ha <;>
          first
            | exact skippedAttempt_error_le _ _
            | exact completeAttempt_error_le _ _ _ _
    · rcases htk : d.twelvedataKey with _ | k2
      · rcases hfo : d.finnhubOutcome with e1 | p1 <;>
          simp [Search.searchGET, hq, hfk, htk, hfo, rankAndDeduplicate_nil] at ha <;>
          rcases ha with ha | ha <;> subst ha <;>
          first
            | exact skippedAttempt_error_le _ _
            | exact completeAttempt_error_le _ _ _ _
      · rcases hfo : d.finnhubOutcome with e1 | p1 <;>
          rcases hto : d.twelvedataOutcome with e2 | p2 <;>
          simp [Search.searchGET, hq, hfk, htk, hfo, hto, rankAndDeduplicate_nil] at ha <;>
          rcases ha with ha | ha <;> subst ha <;>
          exact completeAttempt_error_le _ _ _ _

/-- C5 counterexample: with Finnhub configured and failing with a
301-character message and Twelve Data unconfigured, the aggregate-failure
body's `providers` map carries the full 301-character reason, exceeding the
claimed 300-character bound (only the attempt's `error` field is
truncated). -/
theorem provider_reason_unbounded_cex :
    (Stocks.stocksGET "AAPL" stocksDepsLong).providers =
      [("finnhub", longMsg), ("twelvedata", "TWELVEDATA_API_KEY missing")] ∧
    300 < longMsg.length := by
  constructor
  · rfl
  · decide

/-- C5 (amended): every `ProviderAttempt` carried in any response of the
three handlers has an `error` field of at most 300 characters (the
`sanitizeErrorMessage` / reason `slice(0, 300)` bound); the per-provider
reason map of aggregate-failure bodies, by contrast, carries the raw
untruncated adapter message. -/
theorem attempt_error_bounded :
    (∀ (rawSymbol : String) (d : Stocks.StocksDeps),
      ∀ a ∈ (Stocks.stocksGET rawSymbol d).attempts, ∀ e, a.error = some e →
        e.length ≤ 300) ∧
    (∀ (nowMs : ℕ) (rawSymbol : String) (rawRange : Option String)
        (d : Candles.CandlesDeps) (cache : Candles.Cache),
      ∀ a ∈ (Candles.candlesGET nowMs rawSymbol rawRange d cache).1.attempts,
        ∀ e, a.error = some e → e.length ≤ 300) ∧
    (∀ (rawQuery : Option String) (rawLimit : Option JsNum) (d : Search.SearchDeps),
      ∀ a ∈ (Search.searchGET rawQuery rawLimit d).attempts, ∀ e, a.error = some e →
        e.length ≤ 300) :=
  ⟨stocksGET_attempts_bounded, candlesGET_attempts_bounded, searchGET_attempts_bounded⟩

/-- C5 witness: the truncated attempt error in the concrete long-message run
is within the bound. -/
theorem attempt_error_bounded_witness :
    (sliceTo longMsg 300).length ≤ 300 :=
  attempt_error_bounded.1 "AAPL" stocksDepsLong
    (Obs.completeAttempt "finnhub" 5 Obs.AttemptStatus.error longMsg)
    (by decide) (sliceTo longMsg 300) rfl

/-- C6 counterexample: for a quote response that is perfectly valid, a
REJECTED profile fetch (`await fetch(profileUrl)` throwing) propagates out of
`fetchFromFinnhub` and fails the adapter — the same quote with a resolved
profile response succeeds.  Only `profileRes.json()` is wrapped in a catch;
the fetch itself is not. -/
theorem finnhub_profile_reject_cex :
    Stocks.fetchFromFinnhub 0 (.ok goodFinnhubQuoteRes) (.error "profile fetch rejected") =
      .error "profile fetch rejected" ∧
    Stocks.fetchFromFinnhub 0 (.ok goodFinnhubQuoteRes)
        (.ok { ok := true, status := 200, json := none }) =
      .ok { quote := { c := 5, d := 1, dp := 1, h := 6, l := 4, o := 5, pc := 4, t := 100 }
            profile := none, provider := "finnhub" } := by
  constructor <;> rfl

/-- C6 (amended): the profile call is best-effort against non-2xx statuses
and malformed JSON: whenever the quote call yields a valid quote, ANY
resolved profile response — regardless of its `ok` flag and with `json`
possibly `none` (parse failure / non-object body) — leaves the adapter
successful, with `profile` the (possibly null) parsed body.  A rejected
profile fetch, by contrast, propagates and fails the adapter. -/
theorem finnhub_profile_best_effort :
    ∀ (now : ℚ) (qres : Stocks.FinnhubQuoteRes) (raw : Stocks.FinnhubQuoteJson)
      (profileRes : Stocks.ProfileRes),
      qres.ok = true →
      qres.json = some raw →
      Stocks.finnhubErrorTruthy raw = false →
      Stocks.hasQuoteData (Stocks.normalizeFinnhubQuote now raw) = true →
      Stocks.fetchFromFinnhub now (.ok qres) (.ok profileRes) =
        .ok { quote := Stocks.normalizeFinnhubQuote now raw
              profile := profileRes.json
              provider := "finnhub" } := by
  intro now qres raw profileRes hok hjson htruthy hq
  simp [Stocks.fetchFromFinnhub, hjson, hok, htruthy, hq]

/-- C6 witness: the amended theorem applied to the concrete valid quote and a
failed (non-2xx, unparsable-body) profile response. -/
theorem finnhub_profile_best_effort_witness :
    Stocks.fetchFromFinnhub 0 (.ok goodFinnhubQuoteRes)
        (.ok { ok := false, status := 500, json := none }) =
      .ok { quote := Stocks.normalizeFinnhubQuote 0
              { errorField := none, c := .num 5, d := .num 1, dp := .num 1, h := .num 6
                l := .num 4, o := .num 5, pc := .num 4, t := .num 100 }
            profile := none, provider := "finnhub" } :=
  finnhub_profile_best_effort 0 goodFinnhubQuoteRes
    { errorField := none, c := .num 5, d := .num 1, dp := .num 1, h := .num 6
      l := .num 4, o := .num 5, pc := .num 4, t := .num 100 }
    { ok := false, status := 500, json := none } rfl rfl rfl (by decide)

/-- Helper: a successful `fetchFromTwelveData` always returns a payload with
provider `"twelvedata"` and a valid quote. -/
theorem fetchFromTwelveData_ok {now : ℚ} {symbol : String}
    {fetch : Except String Stocks.TwelveQuoteRes} {payload : Stocks.StockPayload}
    (h : Stocks.fetchFromTwelveData now symbol fetch = .ok payload) :
    payload.provider = "twelvedata" ∧ Stocks.hasQuoteData payload.quote = true := by
  rcases fetch with res | res
  · simp [Stocks.fetchFromTwelveData] at h
  · rcases hjson : res.json with _ | raw
    · simp [Stocks.fetchFromTwelveData, hjson] at h
    · by_cases hok : res.ok
      · by_cases hst : raw.status = some "error"
        · simp [Stocks.fetchFromTwelveData, hjson, hok, hst] at h
        · by_cases hq : Stocks.hasQuoteData (Stocks.normalizeTwelveDataQuote now raw)
          · simp [Stocks.fetchFromTwelveData, hjson, hok, hst, hq] at h
            rw [← h]
            exact ⟨rfl, hq⟩
          · simp [Stocks.fetchFromTwelveData, hjson, hok, hst, hq] at h
      · simp [Stocks.fetchFromTwelveData, hjson, hok] at h

/-- C1: (a) a Finnhub quote body whose normalized price is zero or negative
(in particular the `Number(...)`-coerced 0 of a non-finite wire value) makes
`fetchFromFinnhub` fail, whatever the rest of the response looks like; and
(b) whenever Finnhub is configured and its adapter fails while Twelve Data is
configured and returns a valid quote payload, the stock handler responds with
that payload — `provider = "twelvedata"`, a valid (positive-price) quote —
and its `meta.providerAttempts` is exactly one `error` entry for finnhub
followed by one `ok` entry for twelvedata. -/
theorem stocks_fallback_to_twelvedata :
    (∀ (now : ℚ) (qres : Stocks.FinnhubQuoteRes) (raw : Stocks.FinnhubQuoteJson)
        (profileFetch : Except String Stocks.ProfileRes),
      qres.json = some raw →
      (Stocks.normalizeFinnhubQuote now raw).c ≤ 0 →
      ∃ m, Stocks.fetchFromFinnhub now (.ok qres) profileFetch = .error m) ∧
    (∀ (rawSymbol : String) (d : Stocks.StocksDeps) (k k2 e : String) (now : ℚ)
        (symbol : String) (tdFetch : Except String Stocks.TwelveQuoteRes)
        (payload : Stocks.StockPayload),
      normSymbol rawSymbol ≠ "" →
      d.finnhubKey = some k →
      d.finnhubOutcome = .error e →
      d.twelvedataKey = some k2 →
      Stocks.fetchFromTwelveData now symbol tdFetch = .ok payload →
      d.twelvedataOutcome = .ok payload →
      (Stocks.stocksGET rawSymbol d).status = 200 ∧
      (Stocks.stocksGET rawSymbol d).payload = some payload ∧
      payload.provider = "twelvedata" ∧
      Stocks.hasQuoteData payload.quote = true ∧
      (Stocks.stocksGET rawSymbol d).attempts.map (fun a => (a.provider, a.status)) =
        [("finnhub", Obs.AttemptStatus.error), ("twelvedata", Obs.AttemptStatus.ok)]) := by
  constructor
  · intro now qres raw profileFetch hjson hc
    by_cases hok : qres.ok
    · by_cases htruthy : Stocks.finnhubErrorTruthy raw
      · exact ⟨raw.errorField.getD "", by simp [Stocks.fetchFromFinnhub, hjson, hok, htruthy]⟩
      · have hq : Stocks.hasQuoteData (Stocks.normalizeFinnhubQuote now raw) = false := by
          simp [Stocks.hasQuoteData]
          exact hc
        exact ⟨"Finnhub returned no quote data",
          by simp [Stocks.fetchFromFinnhub, hjson, hok, htruthy, hq]⟩
    · exact ⟨"Finnhub quote failed (" ++ toString qres.status ++ ")",
        by simp [Stocks.fetchFromFinnhub, hjson, hok]⟩
  · intro rawSymbol d k k2 e now symbol tdFetch payload hsym hfk hfo htk htd hto
    have hpp := fetchFromTwelveData_ok htd
    refine ⟨?_, ?_, hpp.1, hpp.2, ?_⟩ <;>
      simp [Stocks.stocksGET, if_neg hsym, hfk, hfo, htk, hto, Obs.completeAttempt]

/-- C1 witness: the fallback scenario at concrete inputs. -/
theorem stocks_fallback_to_twelvedata_witness :
    (Stocks.stocksGET "AAPL" stocksDepsFallback).status = 200 ∧
    (Stocks.stocksGET "AAPL" stocksDepsFallback).payload = some goodTwelvePayload ∧
    goodTwelvePayload.provider = "twelvedata" ∧
    Stocks.hasQuoteData goodTwelvePayload.quote = true ∧
    (Stocks.stocksGET "AAPL" stocksDepsFallback).attempts.map
        (fun a => (a.provider, a.status)) =
      [("finnhub", Obs.AttemptStatus.error), ("twelvedata", Obs.AttemptStatus.ok)] :=
  stocks_fallback_to_twelvedata.2 "AAPL" stocksDepsFallback "k" "t" "boom" 0 "AAPL"
    (.ok ⟨true, 200, some goodTwelveQuoteJson⟩) goodTwelvePayload
    (by decide) rfl rfl rfl (by rfl) (by rfl)

namespace Candles

/-- Helper: `normalizeRows` output is sorted by timestamp. -/
theorem normalizeRows_sorted (rows : List CandleRow) (a b : ℚ) :
    List.Sorted rowLE (normalizeRows rows a b) :=
  List.sorted_insertionSort _ _

/-- Helper: every row surviving `normalizeRows` passes its filter. -/
theorem normalizeRows_keep (rows : List CandleRow) (a b : ℚ) :
    ∀ r ∈ normalizeRows rows a b, rowKeep a b r = true := by
  intro r hr
  have hm : r ∈ (rows.filter (rowKeep a b)) :=
    (List.perm_insertionSort rowLE _).mem_iff.1 hr
  exact List.of_mem_filter hm

/-- Helper: the timestamps of a payload built from sorted rows are
non-decreasing. -/
theorem toPayload_t_chain {rows : List CandleRow} (hs : List.Sorted rowLE rows)
    (prov sym : String) (rng : RangeKey) (res : String) :
    List.Chain' (fun x y : JsNum => x.toQ ≤ y.toQ) (toPayload rows prov sym rng res).t := by
  have hp : List.Pairwise (fun x y : JsNum => x.toQ ≤ y.toQ) (rows.map CandleRow.t) := by
    rw [List.pairwise_map]
    exact hs.imp fun h => h
  exact hp.chain'

/-- Helper: inversion of a successful Finnhub candle fetch. -/
theorem fetchFinnhubCandles_ok {symbol : String} {range : RangeKey} {a b : ℚ}
    {fetch : Except String FinnhubCandleRes} {p : CandlePayload}
    (h : fetchFinnhubCandles symbol range a b fetch = .ok p) :
    ∃ res : FinnhubCandleRes, fetch = .ok res ∧
      normalizeRows (parseFinnhubRows res.json) a b ≠ [] ∧
      p = toPayload (normalizeRows (parseFinnhubRows res.json) a b) "finnhub" symbol range
        (finnhubResolution range) := by
  rcases fetch with m | res
  · simp [fetchFinnhubCandles] at h
  · by_cases hok : res.ok
    · by_cases hrows : normalizeRows (parseFinnhubRows res.json) a b = []
      · simp [fetchFinnhubCandles, hok, hrows] at h
      · simp [fetchFinnhubCandles, hok, hrows] at h
        exact ⟨res, rfl, hrows, h.symm⟩
    · simp [fetchFinnhubCandles, hok] at h

/-- Helper: inversion of a successful Twelve Data candle fetch. -/
theorem fetchTwelveDataCandles_ok {symbol : String} {range : RangeKey} {a b : ℚ}
    {fetch : Except String TwelveCandleRes} {p : CandlePayload}
    (h : fetchTwelveDataCandles symbol range a b fetch = .ok p) :
    ∃ res : TwelveCandleRes, fetch = .ok res ∧
      normalizeRows (parseTwelveDataRows res.json) a b ≠ [] ∧
      p = toPayload (normalizeRows (parseTwelveDataRows res.json) a b) "twelvedata" symbol
        range (twelveDataInterval range) := by
  rcases fetch with m | res
  · simp [fetchTwelveDataCandles] at h
  · rcases hjson : res.json with _ | raw
    · simp [fetchTwelveDataCandles, hjson] at h
    · by_cases hok : res.ok
      · by_cases hst : raw.status = some "error"
        · simp [fetchTwelveDataCandles, hjson, hok, hst] at h
        · by_cases hrows : normalizeRows (parseTwelveDataRows res.json) a b = []
          · rw [hjson] at hrows
            simp [fetchTwelveDataCandles, hjson, hok, hst, hrows] at h
          · rw [hjson] at hrows
            simp [fetchTwelveDataCandles, hjson, hok, hst, hrows] at h
            exact ⟨res, rfl, by rw [hjson]; exact hrows, by rw [hjson]; exact h.symm⟩
      · simp [fetchTwelveDataCandles, hjson, hok] at h

/-- Helper: inversion of a successful Alpha Vantage candle fetch. -/
theorem fetchAlphaVantageCandles_ok {symbol : String} {range : RangeKey} {a b : ℚ}
    {fetch : Except String AlphaCandleRes} {p : CandlePayload}
    (h : fetchAlphaVantageCandles symbol range a b fetch = .ok p) :
    ∃ (res : AlphaCandleRes) (parsed : List CandleRow), fetch = .ok res ∧
      parseAlphaRows res.json range = .ok parsed ∧
      normalizeRows parsed a b ≠ [] ∧
      ∃ resolution, p = toPayload (normalizeRows parsed a b) "alphavantage" symbol range
        resolution := by
  rcases fetch with m | res
  · simp [fetchAlphaVantageCandles] at h
  · by_cases hcond : res.json = none ∨ ¬res.ok = true
    · simp only [fetchAlphaVantageCandles, if_pos hcond] at h
      cases h
    · simp only [fetchAlphaVantageCandles, if_neg hcond] at h
      rcases hp : parseAlphaRows res.json range with m | parsed
      · rw [hp] at h
        cases h
      · rw [hp] at h
        by_cases hrows : normalizeRows parsed a b = []
        · simp [hrows] at h
        · simp [hrows] at h
          exact ⟨res, parsed, rfl, hp, hrows, _, h.symm⟩

/-- Helper: extraction of the per-field facts from `rowKeep`. -/
theorem rowKeep_fields {a b : ℚ} {r : CandleRow} (h : rowKeep a b r = true) :
    r.t.isFinite = true ∧ r.o.isFinite = true ∧ r.h.isFinite = true ∧
      r.l.isFinite = true ∧ r.c.isFinite = true ∧ r.v.isFinite = true ∧
      a ≤ r.t.toQ ∧ r.t.toQ ≤ b := by
  simp only [rowKeep, Bool.and_eq_true, decide_eq_true_eq] at h
  exact ⟨h.1.1.1.1.1.1.1, h.1.1.1.1.1.1.2, h.1.1.1.1.1.2, h.1.1.1.1.2, h.1.1.1.2,
    h.1.1.2, h.1.2, h.2⟩

/-- Helper: the payload of filter-passing rows has all-finite arrays and
in-window timestamps. -/
theorem toPayload_filtered {rows : List CandleRow} {a b : ℚ}
    (hall : ∀ r ∈ rows, rowKeep a b r = true) (prov sym : String) (rng : RangeKey)
    (res : String) :
    ((toPayload rows prov sym rng res).t.all JsNum.isFinite ∧
      (toPayload rows prov sym rng res).o.all JsNum.isFinite ∧
      (toPayload rows prov sym rng res).h.all JsNum.isFinite ∧
      (toPayload rows prov sym rng res).l.all JsNum.isFinite ∧
      (toPayload rows prov sym rng res).c.all JsNum.isFinite ∧
      (toPayload rows prov sym rng res).v.all JsNum.isFinite) ∧
    ∀ x ∈ (toPayload rows prov sym rng res).t, a ≤ x.toQ ∧ x.toQ ≤ b := by
  constructor
  · refine ⟨?_, ?_, ?_, ?_, ?_, ?_⟩ <;> rw [List.all_eq_true] <;> intro x hx <;>
      simp only [toPayload] at hx <;> rw [List.mem_map] at hx <;>
      obtain ⟨r, hr, rfl⟩ := hx
    · exact (rowKeep_fields (hall r hr)).1
    · exact (rowKeep_fields (hall r hr)).2.1
    · exact (rowKeep_fields (hall r hr)).2.2.1
    · exact (rowKeep_fields (hall r hr)).2.2.2.1
    · exact (rowKeep_fields (hall r hr)).2.2.2.2.1
    · exact (rowKeep_fields (hall r hr)).2.2.2.2.2.1
  · intro x hx
    simp only [toPayload] at hx
    rw [List.mem_map] at hx
    obtain ⟨r, hr, rfl⟩ := hx
    exact ⟨(rowKeep_fields (hall r hr)).2.2.2.2.2.2.1,
      (rowKeep_fields (hall r hr)).2.2.2.2.2.2.2⟩

/-- Helper: a successful `tryStep` returns the outcome of its provider. -/
theorem tryStep_inl {acc : List (String × String) × List Obs.ProviderAttempt}
    {prov : String} {key : Option String} {outcome : Except String CandlePayload}
    {lat : ℕ} {miss : String} {p : CandlePayload} {atts : List Obs.ProviderAttempt}
    (h : tryStep acc prov key outcome lat miss = .inl (p, atts)) :
    outcome = .ok p := by
  rcases key with _ | k <;> rcases outcome with e | q <;> simp [tryStep] at h
  rw [h.1]

/-- Helper: the payload of a successful fallback chain comes from one of the
three adapters. -/
theorem tryProviders_inl {d : CandlesDeps} {p : CandlePayload}
    {atts : List Obs.ProviderAttempt} (h : tryProviders d = .inl (p, atts)) :
    d.finnhubOutcome = .ok p ∨ d.twelvedataOutcome = .ok p ∨
      d.alphavantageOutcome = .ok p := by
  unfold tryProviders at h
  rcases hs1 : tryStep ([], []) "finnhub" d.finnhubKey d.finnhubOutcome d.finnhubLatency
      "FINNHUB_API_KEY missing" with r1 | acc1 <;> simp only [hs1] at h
  · rcases r1 with ⟨p1, a1⟩
    simp at h
    exact Or.inl (h.1 ▸ tryStep_inl hs1)
  · rcases hs2 : tryStep acc1 "twelvedata" d.twelvedataKey d.twelvedataOutcome
        d.twelvedataLatency "TWELVEDATA_API_KEY missing" with r2 | acc2 <;>
      simp only [hs2] at h
    · rcases r2 with ⟨p2, a2⟩
      simp at h
      exact Or.inr (Or.inl (h.1 ▸ tryStep_inl hs2))
    · exact Or.inr (Or.inr (tryStep_inl h))

/-- Helper: inversion of a fresh (non-cache) 200 response of the candle
handler. -/
theorem candlesGET_fresh_success {nowMs : ℕ} {rawSymbol : String}
    {rawRange : Option String} {d : CandlesDeps} {cache : Cache}
    (h200 : (candlesGET nowMs rawSymbol rawRange d cache).1.status = 200)
    (hfresh : (candlesGET nowMs rawSymbol rawRange d cache).1.cacheHit = some false) :
    ∃ p atts, tryProviders d = .inl (p, atts) ∧
      candlesGET nowMs rawSymbol rawRange d cache =
        ({ status := 200, payload := some p, errorMsg := none, providers := []
           cacheHit := some false, attempts := atts },
         cacheSet cache (normSymbol rawSymbol ++ "|" ++ rangeStr (parseRange rawRange))
           { expires := (nowMs : ℤ) + ttlSeconds (parseRange rawRange) * 1000
             payload := p }) ∧
      normSymbol rawSymbol ≠ "" := by
  by_cases hs : normSymbol rawSymbol = ""
  · simp [candlesGET, hs] at h200
  · simp only [candlesGET, if_neg hs] at h200 hfresh ⊢
    have hmiss_case :
        (candlesGET.candlesMiss nowMs (parseRange rawRange)
          (normSymbol rawSymbol ++ "|" ++ rangeStr (parseRange rawRange)) d cache).1.status =
            200 →
        ∃ p atts, tryProviders d = .inl (p, atts) ∧
          candlesGET.candlesMiss nowMs (parseRange rawRange)
            (normSymbol rawSymbol ++ "|" ++ rangeStr (parseRange rawRange)) d cache =
          ({ status := 200, payload := some p, errorMsg := none, providers := []
             cacheHit := some false, attempts := atts },
           cacheSet cache (normSymbol rawSymbol ++ "|" ++ rangeStr (parseRange rawRange))
             { expires := (nowMs : ℤ) + ttlSeconds (parseRange rawRange) * 1000
               payload := p }) := by
      intro hsm
      unfold candlesGET.candlesMiss at hsm ⊢
      rcases htp : tryProviders d with ⟨p, atts⟩ | ⟨errs, atts⟩
      · exact ⟨p, atts, rfl, rfl⟩
      · rw [htp] at hsm
        simp at hsm
    rcases hc : cacheGet cache (normSymbol rawSymbol ++ "|" ++ rangeStr (parseRange rawRange))
      with _ | entry
    · rw [hc] at h200 hfresh
      obtain ⟨p, atts, htp, heq⟩ := hmiss_case h200
      exact ⟨p, atts, htp, heq, hs⟩
    · rw [hc] at h200 hfresh
      by_cases ht : (nowMs : ℤ) < entry.expires
      · simp [ht] at hfresh
      · simp only [if_neg ht] at h200 hfresh ⊢
        obtain ⟨p, atts, htp, heq⟩ := hmiss_case h200
        exact ⟨p, atts, htp, heq, hs⟩

end Candles

/-- C2 counterexample: a successful fresh `GET /candles` response served by
Finnhub from a body with a duplicated timestamp carries
`t = [999990, 999990]`, which is not strictly ascending — `normalizeRows`
sorts but never deduplicates timestamps. -/
theorem candles_dup_timestamps_cex :
    (Candles.candlesGET 1000000000 "AAPL" (some "3M") candlesDepsDup []).1.status = 200 ∧
    ((Candles.candlesGET 1000000000 "AAPL" (some "3M") candlesDepsDup []).1.payload.map
        Candles.CandlePayload.t) = some [.num 999990, .num 999990] ∧
    ¬ List.Chain' (fun x y : JsNum => x.toQ < y.toQ)
        [JsNum.num 999990, JsNum.num 999990] := by
  refine ⟨by rfl, by rfl, by simp [List.chain'_cons, JsNum.toQ]⟩

/-- C2 (amended): for every fresh (non-cache) successful `GET /candles`
response whose adapter outcomes come from the three candle adapters, the
returned `t[]` is non-decreasing (sorted ascending, adjacent duplicates
possible); strict ascent fails exactly when a provider returns duplicate
timestamps. -/
theorem candles_t_nondecreasing :
    ∀ (nowMs : ℕ) (rawSymbol : String) (rawRange : Option String)
      (d : Candles.CandlesDeps) (cache : Candles.Cache)
      (s1 s2 s3 : String) (r1 r2 r3 : Candles.RangeKey) (a1 b1 a2 b2 a3 b3 : ℚ)
      (f1 : Except String Candles.FinnhubCandleRes)
      (f2 : Except String Candles.TwelveCandleRes)
      (f3 : Except String Candles.AlphaCandleRes),
      d.finnhubOutcome = Candles.fetchFinnhubCandles s1 r1 a1 b1 f1 →
      d.twelvedataOutcome = Candles.fetchTwelveDataCandles s2 r2 a2 b2 f2 →
      d.alphavantageOutcome = Candles.fetchAlphaVantageCandles s3 r3 a3 b3 f3 →
      (Candles.candlesGET nowMs rawSymbol rawRange d cache).1.status = 200 →
      (Candles.candlesGET nowMs rawSymbol rawRange d cache).1.cacheHit = some false →
      ∀ p, (Candles.candlesGET nowMs rawSymbol rawRange d cache).1.payload = some p →
        List.Chain' (fun x y : JsNum => x.toQ ≤ y.toQ) p.t := by
  intro nowMs rawSymbol rawRange d cache s1 s2 s3 r1 r2 r3 a1 b1 a2 b2 a3 b3 f1 f2 f3
    hf1 hf2 hf3 h200 hfresh p hp
  obtain ⟨p0, atts, htp, heq, -⟩ := Candles.candlesGET_fresh_success h200 hfresh
  rw [heq] at hp
  simp at hp
  subst hp
  rcases Candles.tryProviders_inl htp with hok | hok | hok
  · rw [hf1] at hok
    obtain ⟨res, -, -, hpay⟩ := Candles.fetchFinnhubCandles_ok hok
    rw [hpay]
    exact Candles.toPayload_t_chain (Candles.normalizeRows_sorted _ _ _) _ _ _ _
  · rw [hf2] at hok
    obtain ⟨res, -, -, hpay⟩ := Candles.fetchTwelveDataCandles_ok hok
    rw [hpay]
    exact Candles.toPayload_t_chain (Candles.normalizeRows_sorted _ _ _) _ _ _ _
  · rw [hf3] at hok
    obtain ⟨res, parsed, -, -, -, resolution, hpay⟩ := Candles.fetchAlphaVantageCandles_ok hok
    rw [hpay]
    exact Candles.toPayload_t_chain (Candles.normalizeRows_sorted _ _ _) _ _ _ _

/-- C2 witness: the amended theorem applied to the concrete duplicate-row
scenario (the non-decreasing chain holds there even though strictness
fails). -/
theorem candles_t_nondecreasing_witness :
    List.Chain' (fun x y : JsNum => x.toQ ≤ y.toQ) [JsNum.num 999990, JsNum.num 999990] := by
  have h := candles_t_nondecreasing 1000000000 "AAPL" (some "3M") candlesDepsDup []
    "AAPL" "s2" "s3" .r3M .r3M .r3M (-6776000) 1000000 0 0 0 0
    (.ok { ok := true, status := 200, json := some dupRowsJson }) (.error "unused")
    (.error "unused") (by rfl) (by rfl) (by rfl) (by rfl) (by rfl)
  have h2 := h ((Candles.candlesGET 1000000000 "AAPL" (some "3M") candlesDepsDup
    []).1.payload.getD (Candles.toPayload [] "" "" .r3M "")) (by rfl)
  simp at h2
  exact h2

/-- Helper: reading the key just written returns the written entry. -/
theorem cacheGet_cacheSet (c : Candles.Cache) (k : String) (e : Candles.CacheEntry) :
    Candles.cacheGet (Candles.cacheSet c k e) k = some e := by
  induction c with
  | nil => simp [Candles.cacheSet, Candles.cacheGet, List.lookup]
  | cons hd tl ih =>
    rcases hd with ⟨k0, e0⟩
    by_cases h : k0 = k
    · simp [Candles.cacheSet, h, Candles.cacheGet, List.lookup]
    · simp only [Candles.cacheSet, if_neg h]
      have hbeq : (k == k0) = false := beq_eq_false_iff_ne.mpr (Ne.symm h)
      simp [Candles.cacheGet, List.lookup, hbeq] at ih ⊢
      exact ih

/-- C7: cache round-trip — after a fresh successful candle fetch, repeating
the same (symbol, range) request while the written entry is unexpired
(within the range-dependent TTL) returns status 200 with `cacheHit = true`,
the exact cached payload of the first response, an empty
`providerAttempts` list (no upstream provider invoked), and leaves the
cache untouched. -/
theorem candles_cache_roundtrip :
    ∀ (now1 now2 : ℕ) (rawSymbol : String) (rawRange : Option String)
      (d1 d2 : Candles.CandlesDeps) (cache : Candles.Cache),
      (Candles.candlesGET now1 rawSymbol rawRange d1 cache).1.status = 200 →
      (Candles.candlesGET now1 rawSymbol rawRange d1 cache).1.cacheHit = some false →
      (now2 : ℤ) <
        (now1 : ℤ) + (Candles.ttlSeconds (Candles.parseRange rawRange) * 1000 : ℕ) →
      (Candles.candlesGET now2 rawSymbol rawRange d2
          (Candles.candlesGET now1 rawSymbol rawRange d1 cache).2).1 =
        { status := 200
          payload := (Candles.candlesGET now1 rawSymbol rawRange d1 cache).1.payload
          errorMsg := none, providers := [], cacheHit := some true, attempts := [] } ∧
      (Candles.candlesGET now2 rawSymbol rawRange d2
          (Candles.candlesGET now1 rawSymbol rawRange d1 cache).2).2 =
        (Candles.candlesGET now1 rawSymbol rawRange d1 cache).2 := by
  intro now1 now2 rawSymbol rawRange d1 d2 cache h200 hfresh httl
  obtain ⟨p, atts, htp, heq, hsym⟩ := Candles.candlesGET_fresh_success h200 hfresh
  rw [heq]
  simp only [Candles.candlesGET, if_neg hsym, cacheGet_cacheSet]
  have hlt : (now2 : ℤ) <
      (now1 : ℤ) + (Candles.ttlSeconds (Candles.parseRange rawRange) : ℤ) * 1000 := by
    push_cast at httl
    exact httl
  rw [if_pos hlt]
  exact ⟨rfl, rfl⟩

/-- C7 witness: the round-trip at concrete inputs — first fetch via Finnhub
at `nowMs = 10^9`, repeat 1 second later well inside the 180-second 3M
TTL. -/
theorem candles_cache_roundtrip_witness :
    (Candles.candlesGET 1000001000 "AAPL" (some "3M") candlesDepsNone
        (Candles.candlesGET 1000000000 "AAPL" (some "3M") candlesDepsDup []).2).1 =
      { status := 200
        payload := (Candles.candlesGET 1000000000 "AAPL" (some "3M")
          candlesDepsDup []).1.payload
        errorMsg := none, providers := [], cacheHit := some true, attempts := [] } ∧
    (Candles.candlesGET 1000001000 "AAPL" (some "3M") candlesDepsNone
        (Candles.candlesGET 1000000000 "AAPL" (some "3M") candlesDepsDup []).2).2 =
      (Candles.candlesGET 1000000000 "AAPL" (some "3M") candlesDepsDup []).2 :=
  candles_cache_roundtrip 1000000000 1000001000 "AAPL" (some "3M") candlesDepsDup
    candlesDepsNone [] (by rfl) (by rfl) (by decide)

/-- C3 counterexample: a non-2xx Finnhub response whose body nonetheless
contains a row surviving the window/finiteness filter still fails the
adapter, refuting the claimed "succeeds if and only if at least one row
survives filtering". -/
theorem candle_adapter_iff_cex :
    Candles.fetchFinnhubCandles "AAPL" .r3M 0 10
        (.ok { ok := false, status := 500, json := some badStatusRowsJson }) =
      .error "Finnhub candles failed (500)" ∧
    Candles.normalizeRows (Candles.parseFinnhubRows (some badStatusRowsJson)) 0 10 ≠ [] := by
  refine ⟨by rfl, by decide⟩

/-- C3 (amended): given a transport-successful response (2xx, parseable body)
carrying no provider-level error signal, each candle adapter succeeds iff at
least one row survives the filter to all-finite rows inside `[from, to]`
(zero surviving rows fail the adapter, and the orchestrator moves on); and
every array of a returned payload is all-finite with every timestamp inside
the window.  A transport-level failure, however, fails the adapter even if
the body contains surviving rows. -/
theorem candle_adapter_success_iff_rows :
    (∀ (symbol : String) (range : Candles.RangeKey) (a b : ℚ)
        (res : Candles.FinnhubCandleRes),
      res.ok = true →
      ((∃ p, Candles.fetchFinnhubCandles symbol range a b (.ok res) = .ok p) ↔
        Candles.normalizeRows (Candles.parseFinnhubRows res.json) a b ≠ [])) ∧
    (∀ (symbol : String) (range : Candles.RangeKey) (a b : ℚ)
        (res : Candles.TwelveCandleRes) (raw : Candles.TwelveCandleJson),
      res.ok = true → res.json = some raw → raw.status ≠ some "error" →
      ((∃ p, Candles.fetchTwelveDataCandles symbol range a b (.ok res) = .ok p) ↔
        Candles.normalizeRows (Candles.parseTwelveDataRows res.json) a b ≠ [])) ∧
    (∀ (symbol : String) (range : Candles.RangeKey) (a b : ℚ)
        (res : Candles.AlphaCandleRes) (raw : Candles.AlphaJson)
        (rows : List Candles.CandleRow),
      res.ok = true → res.json = some raw → raw.note.getD "" = "" →
      raw.errorMessage.getD "" = "" →
      raw.series.lookup (Candles.alphaSeriesKey range) = some rows →
      ((∃ p, Candles.fetchAlphaVantageCandles symbol range a b (.ok res) = .ok p) ↔
        Candles.normalizeRows rows a b ≠ [])) ∧
    (∀ (symbol : String) (range : Candles.RangeKey) (a b : ℚ)
        (f1 : Except String Candles.FinnhubCandleRes)
        (f2 : Except String Candles.TwelveCandleRes)
        (f3 : Except String Candles.AlphaCandleRes) (p : Candles.CandlePayload),
      (Candles.fetchFinnhubCandles symbol range a b f1 = .ok p ∨
        Candles.fetchTwelveDataCandles symbol range a b f2 = .ok p ∨
        Candles.fetchAlphaVantageCandles symbol range a b f3 = .ok p) →
      (p.t.all JsNum.isFinite ∧ p.o.all JsNum.isFinite ∧ p.h.all JsNum.isFinite ∧
        p.l.all JsNum.isFinite ∧ p.c.all JsNum.isFinite ∧ p.v.all JsNum.isFinite) ∧
      ∀ x ∈ p.t, a ≤ x.toQ ∧ x.toQ ≤ b) := by
  refine ⟨?_, ?_, ?_, ?_⟩
  · intro symbol range a b res hok
    constructor
    · intro ⟨p, hp⟩
      obtain ⟨res2, hres2, hne, -⟩ := Candles.fetchFinnhubCandles_ok hp
      cases hres2
      exact hne
    · intro hne
      refine ⟨Candles.toPayload (Candles.normalizeRows (Candles.parseFinnhubRows res.json) a b)
        "finnhub" symbol range (Candles.finnhubResolution range), ?_⟩
      simp [Candles.fetchFinnhubCandles, hok, hne]
  · intro symbol range a b res raw hok hjson hst
    constructor
    · intro ⟨p, hp⟩
      obtain ⟨res2, hres2, hne, -⟩ := Candles.fetchTwelveDataCandles_ok hp
      cases hres2
      exact hne
    · intro hne
      rw [hjson] at hne
      refine ⟨Candles.toPayload (Candles.normalizeRows (Candles.parseTwelveDataRows (some raw))
        a b) "twelvedata" symbol range (Candles.twelveDataInterval range), ?_⟩
      simp [Candles.fetchTwelveDataCandles, hjson, hok, hst, hne]
  · intro symbol range a b res raw rows hok hjson hnote herr hlookup
    constructor
    · intro ⟨p, hp⟩
      obtain ⟨res2, parsed, hres2, hparsed, hne, -⟩ := Candles.fetchAlphaVantageCandles_ok hp
      cases hres2
      have : parsed = rows := by
        simp [Candles.parseAlphaRows, hjson, hnote, herr, hlookup] at hparsed
        exact hparsed.symm
      rw [← this]
      exact hne
    · intro hne
      have hparse : Candles.parseAlphaRows res.json range = .ok rows := by
        simp [Candles.parseAlphaRows, hjson, hnote, herr, hlookup]
      have hcond : ¬(res.json = none ∨ ¬res.ok = true) := by
        simp [hjson, hok]
      refine ⟨Candles.toPayload (Candles.normalizeRows rows a b) "alphavantage" symbol range
        (if (Candles.alphaConfig range).1 = "TIME_SERIES_WEEKLY_ADJUSTED" then "W"
         else if (Candles.alphaConfig range).1 = "TIME_SERIES_INTRADAY" then
           (Candles.alphaConfig range).2.1.getD "" else "D"), ?_⟩
      simp only [Candles.fetchAlphaVantageCandles, if_neg hcond, hparse, if_neg hne]
  · intro symbol range a b f1 f2 f3 p hsrc
    rcases hsrc with hp | hp | hp
    · obtain ⟨res, -, -, hpay⟩ := Candles.fetchFinnhubCandles_ok hp
      rw [hpay]
      exact Candles.toPayload_filtered (Candles.normalizeRows_keep _ _ _) _ _ _ _
    · obtain ⟨res, -, -, hpay⟩ := Candles.fetchTwelveDataCandles_ok hp
      rw [hpay]
      exact Candles.toPayload_filtered (Candles.normalizeRows_keep _ _ _) _ _ _ _
    · obtain ⟨res, parsed, -, -, -, resolution, hpay⟩ := Candles.fetchAlphaVantageCandles_ok hp
      rw [hpay]
      exact Candles.toPayload_filtered (Candles.normalizeRows_keep _ _ _) _ _ _ _

/-- C3 witness: the amended iff applied to a concrete 2xx response with one
surviving row gives adapter success. -/
theorem candle_adapter_success_iff_rows_witness :
    ∃ p, Candles.fetchFinnhubCandles "AAPL" .r3M 0 10
        (.ok { ok := true, status := 200, json := some badStatusRowsJson }) = .ok p :=
  (candle_adapter_success_iff_rows.1 "AAPL" .r3M 0 10
    { ok := true, status := 200, json := some badStatusRowsJson } rfl).2 (by decide)

/-- C9: the search route returns the error-status provider-failure payload
exactly when the query is non-empty and every configured provider failed
(vacuously including the no-provider-configured case); every other request
gets a success status, and an empty (or whitespace-only) query yields
`{ result: [] }` with success status, no provider attempts and no `meta`
member. -/
theorem search_error_only_when_all_fail :
    ∀ (rawQuery : Option String) (rawLimit : Option JsNum) (d : Search.SearchDeps),
      ((Search.searchGET rawQuery rawLimit d).status = 502 ↔
        (Search.cleanQuery rawQuery ≠ "" ∧
          (∀ k, d.finnhubKey = some k → ∃ e, d.finnhubOutcome = Except.error e) ∧
          (∀ k, d.twelvedataKey = some k → ∃ e, d.twelvedataOutcome = Except.error e))) ∧
      ((Search.searchGET rawQuery rawLimit d).status = 502 ∨
        (Search.searchGET rawQuery rawLimit d).status = 200) ∧
      (Search.cleanQuery rawQuery = "" →
        Search.searchGET rawQuery rawLimit d =
          { status := 200, result := [], errorMsg := none, providers := [], hasMeta := false
            attempts := [] }) := by
  intro rawQuery rawLimit d
  by_cases hq : Search.cleanQuery rawQuery = ""
  · simp [Search.searchGET, hq]
  · refine ⟨?_, ?_, fun h => absurd h hq⟩ <;>
      rcases hfk : d.finnhubKey with _ | k <;> rcases htk : d.twelvedataKey with _ | k2
    · simp [Search.searchGET, hq, hfk, htk]
    · rcases hto : d.twelvedataOutcome with e2 | p2 <;>
        simp [Search.searchGET, hq, hfk, htk, hto, rankAndDeduplicate_nil]
    · rcases hfo : d.finnhubOutcome with e1 | p1 <;>
        simp [Search.searchGET, hq, hfk, htk, hfo, rankAndDeduplicate_nil]
    · rcases hfo : d.finnhubOutcome with e1 | p1 <;>
        rcases hto : d.twelvedataOutcome with e2 | p2 <;>
        simp [Search.searchGET, hq, hfk, htk, hfo, hto, rankAndDeduplicate_nil]
    · simp [Search.searchGET, hq, hfk, htk]
    · rcases hto : d.twelvedataOutcome with e2 | p2 <;>
        simp [Search.searchGET, hq, hfk, htk, hto, rankAndDeduplicate_nil]
    · rcases hfo : d.finnhubOutcome with e1 | p1 <;>
        simp [Search.searchGET, hq, hfk, htk, hfo, rankAndDeduplicate_nil]
    · rcases hfo : d.finnhubOutcome with e1 | p1 <;>
        rcases hto : d.twelvedataOutcome with e2 | p2 <;>
        simp [Search.searchGET, hq, hfk, htk, hfo, hto, rankAndDeduplicate_nil]

/-- C9 witness: a whitespace-only query gives the empty success body, and
with the only configured provider failing the status is 502. -/
theorem search_error_only_when_all_fail_witness :
    Search.searchGET (some "  ") none searchDepsFail =
      { status := 200, result := [], errorMsg := none, providers := [], hasMeta := false
        attempts := [] } ∧
    (Search.searchGET (some "apple") none searchDepsFail).status = 502 := by
  constructor
  · exact (search_error_only_when_all_fail (some "  ") none searchDepsFail).2.2 (by rfl)
  · exact (search_error_only_when_all_fail (some "apple") none searchDepsFail).1.mpr
      ⟨by decide, fun k hk => ⟨"rate limited", rfl⟩, fun k hk => by cases hk⟩

/-- Helper: `upsertGroup` preserves non-emptiness of all latency lists. -/
theorem upsertGroup_latencies (acc : List (String × Obs.Group)) (r : Obs.ProviderRecord)
    (hacc : ∀ p ∈ acc, p.2.latencies ≠ []) :
    ∀ p ∈ Obs.upsertGroup acc r, p.2.latencies ≠ [] := by
  induction acc with
  | nil =>
    intro p hp
    simp [Obs.upsertGroup] at hp
    subst hp
    simp [Obs.updateGroup]
  | cons hd tl ih =>
    rcases hd with ⟨k0, g0⟩
    intro p hp
    by_cases hk : k0 = Obs.recordKey r
    · simp only [Obs.upsertGroup, if_pos hk, List.mem_cons] at hp
      rcases hp with hp | hp
      · subst hp
        simp [Obs.updateGroup]
      · exact hacc p (List.mem_cons_of_mem _ hp)
    · simp only [Obs.upsertGroup, if_neg hk, List.mem_cons] at hp
      rcases hp with hp | hp
      · subst hp
        exact hacc (k0, g0) (List.mem_cons_self _ _)
      · exact ih (fun q hq => hacc q (List.mem_cons_of_mem _ hq)) p hp

/-- Helper: every group accumulated from the record log has at least one
latency. -/
theorem groupRecords_latencies (records : List Obs.ProviderRecord) :
    ∀ p ∈ Obs.groupRecords records, p.2.latencies ≠ [] := by
  suffices h : ∀ acc, (∀ p ∈ acc, p.2.latencies ≠ []) →
      ∀ p ∈ records.foldl Obs.upsertGroup acc, p.2.latencies ≠ [] by
    exact h [] (by simp)
  induction records with
  | nil =>
    intro acc hacc
    simpa using hacc
  | cons r rs ih =>
    intro acc hacc
    simp only [List.foldl_cons]
    exact ih _ (upsertGroup_latencies acc r hacc)

/-- Helper: the floor index used by `percentile` never exceeds `n - 1` (for
`p = 95`), so the clamp is inactive. -/
theorem percentile95_idx_le {n : ℕ} (hn : n ≠ 0) : 95 * n / 100 ≤ n - 1 := by
  have h : 95 * n / 100 < n := by
    rw [Nat.div_lt_iff_lt_mul (by norm_num : 0 < 100)]
    omega
  omega

/-- Helper: `percentile _ 95` reads the sorted list at the un-clamped floor
index. -/
theorem percentile95_eq (values : List ℕ) (hne : values ≠ []) :
    Obs.percentile values 95 =
      (Obs.sortNat values).getD (95 * values.length / 100) 0 := by
  have hlen : (Obs.sortNat values).length = values.length :=
    (List.perm_insertionSort _ _).length_eq
  have hn : values.length ≠ 0 := by
    simpa [List.length_eq_zero] using hne
  rw [Obs.percentile, if_neg hne]
  simp only [hlen]
  rw [min_eq_right (percentile95_idx_le hn)]

/-- Helper: when `0.95·n` is not an integer, the nearest-rank index agrees
with the floor index. -/
theorem ceil95_idx_eq {n : ℕ} (_hn : n ≠ 0) (h20 : ¬20 ∣ n) :
    (⌈((95 : ℕ) : ℚ) * (n : ℚ) / 100⌉).toNat - 1 = 95 * n / 100 := by
  have hnd : ¬100 ∣ 95 * n := by
    intro hd
    apply h20
    obtain ⟨m, hm⟩ := hd
    have h19 : 19 * n = 20 * m := by omega
    have h1 : (20 : ℕ) ∣ 19 * n := ⟨m, h19⟩
    exact (Nat.Coprime.dvd_of_dvd_mul_left (by decide) h1)
  obtain ⟨q, hq⟩ : ∃ q, 95 * n / 100 = q := ⟨_, rfl⟩
  have hstrict : q * 100 < 95 * n := by omega
  have hup : 95 * n ≤ q * 100 + 100 := by omega
  have hceil : ⌈((95 : ℕ) : ℚ) * (n : ℚ) / 100⌉ = (q : ℤ) + 1 := by
    rw [Int.ceil_eq_iff]
    constructor
    · rw [lt_div_iff₀ (by norm_num : (0 : ℚ) < 100)]
      have hc : (q : ℚ) * 100 < (95 : ℚ) * (n : ℚ) := by exact_mod_cast hstrict
      push_cast
      linarith
    · rw [div_le_iff₀ (by norm_num : (0 : ℚ) < 100)]
      have hc : (95 : ℚ) * (n : ℚ) ≤ (q : ℚ) * 100 + 100 := by exact_mod_cast hup
      push_cast
      linarith
  rw [hceil]
  omega

/-- C4 counterexample: twenty records with latencies 1..20 in a single
(route, provider) group give `p95LatencyMs = 20`, while the nearest-rank
95th percentile of those latencies is 19 — `percentile` indexes with
`Math.floor(0.95·n)` (clamped), not with rank `⌈0.95·n⌉`, and the two
differ whenever `n` is a multiple of 20. -/
theorem p95_not_nearest_rank_cex :
    ((Obs.getObservabilitySnapshot 100 obsRecords20).providerMetrics.map
      (fun m => m.p95LatencyMs)) = [20] ∧
    (Obs.groupRecords obsRecords20).map (fun p => p.2.latencies) =
      [(List.range 20).map (fun i => i + 1)] ∧
    Obs.nearestRankPercentile ((List.range 20).map (fun i => i + 1)) 95 = 19 := by
  refine ⟨by rfl, by rfl, ?_⟩
  rw [Obs.nearestRankPercentile, if_neg (by decide)]
  have hsorted : Obs.sortNat ((List.range 20).map (fun i => i + 1)) =
      (List.range 20).map (fun i => i + 1) := by decide
  simp only [hsorted]
  have hlen : ((List.range 20).map (fun i => i + 1)).length = 20 := by decide
  rw [hlen]
  have h19 : ⌈((95 : ℕ) : ℚ) * ((20 : ℕ) : ℚ) / 100⌉ = (19 : ℤ) := by norm_num
  rw [h19]
  decide

/-- C4 (amended): every entry of the snapshot's `providerMetrics` comes from
a latency group with `avgLatencyMs` the rounded arithmetic mean of the
group's latencies; `p95LatencyMs` is the sorted value at the zero-based
floor index `⌊0.95·n⌋`, which equals the nearest-rank (rank `⌈0.95·n⌉`)
percentile whenever `0.95·n` is not an integer, and is the value one rank
above it when `n` is a multiple of 20. -/
theorem snapshot_latency_metrics :
    ∀ (limit : ℤ) (records : List Obs.ProviderRecord),
      ∀ m ∈ (Obs.getObservabilitySnapshot limit records).providerMetrics,
        ∃ g, g ∈ (Obs.groupRecords records).map Prod.snd ∧ m = Obs.metricOf g ∧
          g.latencies ≠ [] ∧
          m.avgLatencyMs = Obs.jsRound ((g.latencies.sum : ℚ) / (g.latencies.length : ℚ)) ∧
          (¬20 ∣ g.latencies.length →
            m.p95LatencyMs = Obs.nearestRankPercentile g.latencies 95) ∧
          (20 ∣ g.latencies.length →
            m.p95LatencyMs = (Obs.sortNat g.latencies).getD
              (95 * g.latencies.length / 100) 0) := by
  intro limit records m hm
  have hm2 : m ∈ ((Obs.groupRecords records).map Prod.snd).map Obs.metricOf := by
    have hperm := List.perm_insertionSort Obs.metricBefore
      (((Obs.groupRecords records).map Prod.snd).map Obs.metricOf)
    simp only [Obs.getObservabilitySnapshot, Obs.providerMetrics] at hm
    exact hperm.mem_iff.1 hm
  obtain ⟨g, hgmem, rfl⟩ := List.mem_map.1 hm2
  obtain ⟨pr, hpr, rfl⟩ := List.mem_map.1 hgmem
  have hne : pr.2.latencies ≠ [] := groupRecords_latencies records pr hpr
  have hn : pr.2.latencies.length ≠ 0 := by
    simpa [List.length_eq_zero] using hne
  have hpos : 0 < pr.2.latencies.length := Nat.pos_of_ne_zero hn
  refine ⟨pr.2, hgmem, rfl, hne, ?_, ?_, ?_⟩
  · simp [Obs.metricOf, hpos]
  · intro h20
    have hlen : (Obs.sortNat pr.2.latencies).length = pr.2.latencies.length :=
      (List.perm_insertionSort _ _).length_eq
    have hm95 : (Obs.metricOf pr.2).p95LatencyMs = Obs.percentile pr.2.latencies 95 := rfl
    rw [hm95, percentile95_eq _ hne, Obs.nearestRankPercentile, if_neg hne]
    simp only [hlen]
    rw [ceil95_idx_eq hn h20]
  · intro _
    have hm95 : (Obs.metricOf pr.2).p95LatencyMs = Obs.percentile pr.2.latencies 95 := rfl
    rw [hm95, percentile95_eq _ hne]

/-- C4 witness: the amended statement applied to the single metric of the
concrete 20-record log. -/
theorem snapshot_latency_metrics_witness :
    ∃ g, g ∈ (Obs.groupRecords obsRecords20).map Prod.snd ∧
      Obs.metricOf (((Obs.groupRecords obsRecords20).map Prod.snd).headD
        (Obs.emptyGroup "" "")) = Obs.metricOf g ∧
      g.latencies ≠ [] := by
  have hmem0 : Obs.metricOf (((Obs.groupRecords obsRecords20).map Prod.snd).headD
      (Obs.emptyGroup "" "")) ∈
      (Obs.getObservabilitySnapshot 100 obsRecords20).providerMetrics := by
    have h : (Obs.getObservabilitySnapshot 100 obsRecords20).providerMetrics =
        [Obs.metricOf (((Obs.groupRecords obsRecords20).map Prod.snd).headD
          (Obs.emptyGroup "" ""))] := rfl
    rw [h]
    exact List.mem_singleton_self _
  obtain ⟨g, hmem, heq, hne, -, -, -⟩ :=
    snapshot_latency_metrics 100 obsRecords20 _ hmem0
  exact ⟨g, hmem, heq, hne⟩

/-- C10 witness: concrete instantiations of the universally quantified
conjuncts. -/
theorem range_never_rejected_witness :
    Candles.parseRange (some "garbage") = Candles.RangeKey.r3M ∧
    ¬(400 ≤ (Candles.candlesGET 0 "AAPL" none candlesDepsNone []).1.status ∧
        (Candles.candlesGET 0 "AAPL" none candlesDepsNone []).1.status < 500) := by
  constructor
  · exact range_never_rejected.2.2.2.2.1 "garbage" (by decide)
  · intro h
    have h2 := (range_never_rejected.2.2.2.2.2 0 "AAPL" none candlesDepsNone []).1 h
    exact absurd h2 (by decide)


/-- Helper: `upsertByCompany` keeps every stored key equal to the stored
candidate's `companyKey`. -/
theorem upsert_keys (item : Search.RankedCandidate) :
    ∀ acc : List (String × Search.RankedCandidate),
      (∀ p ∈ acc, (Prod.snd p).companyKey = p.1) →
      ∀ p ∈ Search.upsertByCompany acc item, (Prod.snd p).companyKey = p.1 := by
  intro acc
  induction acc with
  | nil =>
    intro _ p hp
    simp only [Search.upsertByCompany, List.mem_singleton] at hp
    subst hp
    rfl
  | cons q rest ih =>
    obtain ⟨k0, e⟩ := q
    intro hacc p hp
    by_cases hk : k0 = item.companyKey
    · simp only [Search.upsertByCompany] at hp
      rw [if_pos hk, List.mem_cons] at hp
      rcases hp with hp | hp
      · subst hp
        by_cases hs : e.score < item.score
        · simp only [if_pos hs]
          exact hk.symm
        · simp only [if_neg hs]
          exact hacc (k0, e) (List.mem_cons_self _ _)
      · exact hacc p (List.mem_cons_of_mem _ hp)
    · simp only [Search.upsertByCompany] at hp
      rw [if_neg hk, List.mem_cons] at hp
      rcases hp with hp | hp
      · subst hp
        exact hacc (k0, e) (List.mem_cons_self _ _)
      · exact ih (fun r hr => hacc r (List.mem_cons_of_mem _ hr)) p hp

/-- Helper: the key set after an upsert is the old key set plus the new
candidate's company key. -/
theorem upsert_key_mem (item : Search.RankedCandidate) (k : String) :
    ∀ acc : List (String × Search.RankedCandidate),
      (k ∈ (Search.upsertByCompany acc item).map Prod.fst ↔
        (k ∈ acc.map Prod.fst ∨ k = item.companyKey)) := by
  intro acc
  induction acc with
  | nil =>
    simp [Search.upsertByCompany]
  | cons q rest ih =>
    obtain ⟨k0, e⟩ := q
    by_cases hk : k0 = item.companyKey
    · subst hk
      simp only [Search.upsertByCompany, eq_self_iff_true, if_true, List.map_cons,
        List.mem_cons]
      tauto
    · simp only [Search.upsertByCompany, if_neg hk, List.map_cons, List.mem_cons, ih]
      tauto

/-- Helper: an upsert never duplicates a key. -/
theorem upsert_keys_nodup (item : Search.RankedCandidate) :
    ∀ acc : List (String × Search.RankedCandidate),
      ((acc.map Prod.fst).Nodup) →
      (((Search.upsertByCompany acc item).map Prod.fst).Nodup) := by
  intro acc
  induction acc with
  | nil =>
    intro _
    simp [Search.upsertByCompany]
  | cons q rest ih =>
    obtain ⟨k0, e⟩ := q
    intro hnd
    rw [List.map_cons, List.nodup_cons] at hnd
    by_cases hk : k0 = item.companyKey
    · simp only [Search.upsertByCompany, if_pos hk, List.map_cons, List.nodup_cons]
      exact ⟨hnd.1, hnd.2⟩
    · simp only [Search.upsertByCompany, if_neg hk, List.map_cons, List.nodup_cons]
      refine ⟨?_, ih hnd.2⟩
      intro hmem
      rcases (upsert_key_mem item k0 rest).1 hmem with h | h
      · exact hnd.1 h
      · exact hk h

/-- Helper: in an association list with no duplicate keys, entries are
determined by their key. -/
theorem keys_nodup_inj :
    ∀ acc : List (String × Search.RankedCandidate),
      ((acc.map Prod.fst).Nodup) →
      ∀ p ∈ acc, ∀ q ∈ acc, p.1 = q.1 → p = q := by
  intro acc
  induction acc with
  | nil =>
    intro _ p hp
    exact absurd hp (List.not_mem_nil p)
  | cons r rest ih =>
    intro hnd p hp q hq hpq
    rw [List.map_cons, List.nodup_cons] at hnd
    rw [List.mem_cons] at hp hq
    rcases hp with hp | hp <;> rcases hq with hq | hq
    · rw [hp, hq]
    · exfalso
      have hm : q.1 ∈ rest.map Prod.fst := List.mem_map_of_mem Prod.fst hq
      rw [← hpq, hp] at hm
      exact hnd.1 hm
    · exfalso
      have hm : p.1 ∈ rest.map Prod.fst := List.mem_map_of_mem Prod.fst hp
      rw [hpq, hq] at hm
      exact hnd.1 hm
    · exact ih hnd.2 p hp q hq hpq

/-- Helper: every entry after an upsert either comes from the old map (and then
beats the new candidate if the keys match) or is the new candidate, installed
because it strictly beat whatever the old map held for its key. -/
theorem upsert_provenance (item : Search.RankedCandidate) :
    ∀ acc : List (String × Search.RankedCandidate),
      ((acc.map Prod.fst).Nodup) →
      ∀ p ∈ Search.upsertByCompany acc item,
        (p ∈ acc ∧ (p.1 = item.companyKey → item.score ≤ (Prod.snd p).score)) ∨
        (p.1 = item.companyKey ∧ Prod.snd p = item ∧
          ∀ q ∈ acc, q.1 = item.companyKey → (Prod.snd q).score < item.score) := by
  intro acc
  induction acc with
  | nil =>
    intro _ p hp
    simp only [Search.upsertByCompany, List.mem_singleton] at hp
    subst hp
    exact Or.inr ⟨rfl, rfl, fun q hq => absurd hq (List.not_mem_nil q)⟩
  | cons r rest ih =>
    obtain ⟨k0, e⟩ := r
    intro hnd p hp
    rw [List.map_cons, List.nodup_cons] at hnd
    by_cases hk : k0 = item.companyKey
    · subst hk
      simp only [Search.upsertByCompany, eq_self_iff_true, if_true, List.mem_cons] at hp
      rcases hp with hp | hp
      · by_cases hs : e.score < item.score
        · rw [if_pos hs] at hp
          subst hp
          refine Or.inr ⟨rfl, rfl, ?_⟩
          intro q hq hq1
          rw [List.mem_cons] at hq
          rcases hq with hq | hq
          · subst hq
            exact hs
          · exfalso
            have hm : q.1 ∈ rest.map Prod.fst := List.mem_map_of_mem Prod.fst hq
            rw [hq1] at hm
            exact hnd.1 hm
        · rw [if_neg hs] at hp
          subst hp
          exact Or.inl ⟨List.mem_cons_self _ _, fun _ => le_of_not_lt hs⟩
      · refine Or.inl ⟨List.mem_cons_of_mem _ hp, ?_⟩
        intro hp1
        exfalso
        have hm : p.1 ∈ rest.map Prod.fst := List.mem_map_of_mem Prod.fst hp
        rw [hp1] at hm
        exact hnd.1 hm
    · simp only [Search.upsertByCompany] at hp
      rw [if_neg hk, List.mem_cons] at hp
      rcases hp with hp | hp
      · subst hp
        exact Or.inl ⟨List.mem_cons_self _ _, fun h => absurd h hk⟩
      · rcases ih hnd.2 p hp with ⟨hmem, hdom⟩ | ⟨h1, h2, h3⟩
        · exact Or.inl ⟨List.mem_cons_of_mem _ hmem, hdom⟩
        · refine Or.inr ⟨h1, h2, ?_⟩
          intro q hq hq1
          rw [List.mem_cons] at hq
          rcases hq with hq | hq
          · subst hq
            exact absurd hq1 hk
          · exact h3 q hq hq1

/-- Helper: the full `byCompany` fold keeps keys consistent and duplicate-free,
and every stored value comes from the ranked list and (weakly) dominates every
ranked element sharing its key. -/
theorem foldl_upsert_spec :
    ∀ (l : List Search.RankedCandidate) (acc : List (String × Search.RankedCandidate)),
      (∀ p ∈ acc, (Prod.snd p).companyKey = p.1) →
      ((acc.map Prod.fst).Nodup) →
      (∀ p ∈ l.foldl Search.upsertByCompany acc, (Prod.snd p).companyKey = p.1) ∧
      (((l.foldl Search.upsertByCompany acc).map Prod.fst).Nodup) ∧
      (∀ p ∈ l.foldl Search.upsertByCompany acc,
        (p ∈ acc ∧ ∀ x ∈ l, x.companyKey = p.1 → x.score ≤ (Prod.snd p).score) ∨
        ((Prod.snd p) ∈ l ∧ p.1 = (Prod.snd p).companyKey ∧
          (∀ x ∈ l, x.companyKey = p.1 → x.score ≤ (Prod.snd p).score) ∧
          (∀ q ∈ acc, q.1 = p.1 → (Prod.snd q).score < (Prod.snd p).score))) := by
  intro l
  induction l with
  | nil =>
    intro acc hkeys hnd
    refine ⟨hkeys, hnd, ?_⟩
    intro p hp
    exact Or.inl ⟨hp, fun x hx => absurd hx (List.not_mem_nil x)⟩
  | cons hd t ih =>
    intro acc hkeys hnd
    rw [List.foldl_cons]
    obtain ⟨ikeys, ind, iprov⟩ := ih (Search.upsertByCompany acc hd)
      (upsert_keys hd acc hkeys) (upsert_keys_nodup hd acc hnd)
    refine ⟨ikeys, ind, ?_⟩
    intro p hp
    rcases iprov p hp with ⟨hmem, hdom⟩ | ⟨hmem, hkey, hdom, hbeat⟩
    · rcases upsert_provenance hd acc hnd p hmem with ⟨hmem2, hdom2⟩ | ⟨h1, h2, h3⟩
      · refine Or.inl ⟨hmem2, ?_⟩
        intro x hx hxk
        rw [List.mem_cons] at hx
        rcases hx with hx | hx
        · subst hx
          exact hdom2 hxk.symm
        · exact hdom x hx hxk
      · refine Or.inr ⟨?_, ?_, ?_, ?_⟩
        · rw [h2]
          exact List.mem_cons_self _ _
        · rw [h1, h2]
        · intro x hx hxk
          rw [List.mem_cons] at hx
          rcases hx with hx | hx
          · subst hx
            simp [h2]
          · exact hdom x hx hxk
        · intro q hq hq1
          rw [h2]
          exact h3 q hq (hq1.trans h1)
    · refine Or.inr ⟨List.mem_cons_of_mem _ hmem, hkey, ?_, ?_⟩
      · intro x hx hxk
        rw [List.mem_cons] at hx
        rcases hx with hx | hx
        · rw [hx] at hxk ⊢
          have hkin : p.1 ∈ (Search.upsertByCompany acc hd).map Prod.fst :=
            (upsert_key_mem hd p.1 acc).2 (Or.inr hxk.symm)
          obtain ⟨q, hqmem, hqfst⟩ := List.mem_map.1 hkin
          have hqlt : (Prod.snd q).score < (Prod.snd p).score := hbeat q hqmem hqfst
          rcases upsert_provenance hd acc hnd q hqmem with ⟨-, hq2⟩ | ⟨-, hq2, -⟩
          · exact le_of_lt (lt_of_le_of_lt (hq2 (hqfst.trans hxk.symm)) hqlt)
          · rw [← hq2]
            exact le_of_lt hqlt
        · exact hdom x hx hxk
      · intro q hq hq1
        have hkin : q.1 ∈ (Search.upsertByCompany acc hd).map Prod.fst :=
          (upsert_key_mem hd q.1 acc).2 (Or.inl (List.mem_map_of_mem Prod.fst hq))
        obtain ⟨q2, hq2mem, hq2fst⟩ := List.mem_map.1 hkin
        have hlt : (Prod.snd q2).score < (Prod.snd p).score :=
          hbeat q2 hq2mem (hq2fst.trans hq1)
        rcases upsert_provenance hd acc hnd q2 hq2mem with ⟨hq2acc, -⟩ | ⟨hk1, hk2, hk3⟩
        · have hqq : q = q2 := keys_nodup_inj acc hnd q hq q2 hq2acc hq2fst.symm
          rw [hqq]
          exact hlt
        · have hlt2 : (Prod.snd q).score < hd.score :=
            hk3 q hq (hq2fst.symm.trans hk1)
          rw [← hk2] at hlt2
          exact lt_trans hlt2 hlt

/-- Helper: `applyScoreCutoff` returns a sublist of its input. -/
theorem applyScoreCutoff_sublist (query : String) (limit : ℕ) :
    ∀ sorted : List Search.RankedCandidate,
      (Search.applyScoreCutoff sorted query limit).Sublist sorted := by
  intro sorted
  rcases sorted with _ | ⟨top, _ | ⟨second, rest⟩⟩
  · exact List.Sublist.refl _
  · exact List.Sublist.refl _
  · simp only [Search.applyScoreCutoff]
    split
    · exact List.Sublist.trans (List.take_sublist _ _) (List.filter_sublist _)
    · split
      · split
        · exact List.Sublist.trans (List.take_sublist _ _) (List.filter_sublist _)
        · exact List.take_sublist _ _
      · split
        · exact List.Sublist.trans (List.take_sublist _ _) (List.filter_sublist _)
        · exact List.take_sublist _ _

/-- Helper: the final symbol-dedup loop emits the projection of a sublist of
its input. -/
theorem dedupeBySymbol_sublist (limit : ℕ) :
    ∀ (l : List Search.RankedCandidate) (seen : List String) (count : ℕ),
      ∃ l2 : List Search.RankedCandidate, l2.Sublist l ∧
        Search.dedupeBySymbol limit l seen count = l2.map Search.toSearchItem := by
  intro l
  induction l with
  | nil =>
    intro seen count
    exact ⟨[], List.Sublist.refl _, rfl⟩
  | cons item rest ih =>
    intro seen count
    by_cases hc : seen.contains item.symbol = true
    · obtain ⟨l2, hsub, heq⟩ := ih seen count
      refine ⟨l2, hsub.cons _, ?_⟩
      simp only [Search.dedupeBySymbol]
      rw [if_pos hc, heq]
    · by_cases hl : limit ≤ count + 1
      · refine ⟨[item], (List.nil_sublist rest).cons₂ item, ?_⟩
        simp only [Search.dedupeBySymbol]
        rw [if_neg hc, if_pos hl]
        rfl
      · obtain ⟨l2, hsub, heq⟩ := ih (item.symbol :: seen) (count + 1)
        refine ⟨item :: l2, hsub.cons₂ _, ?_⟩
        simp only [Search.dedupeBySymbol]
        rw [if_neg hc, if_neg hl, heq]
        rfl

/-- Helper: every value of the `byCompany` map is one of the ranked input
candidates and weakly dominates the score of every input candidate sharing
its company key. -/
theorem byCompany_spec (candidates : List Search.Candidate) (query : String) :
    ∀ r ∈ ((List.insertionSort Search.scoreDesc
        (candidates.map (Search.toRanked query))).foldl
          Search.upsertByCompany []).map Prod.snd,
      (∃ c ∈ candidates, r = Search.toRanked query c) ∧
      (∀ c2 ∈ candidates,
        (Search.toRanked query c2).companyKey = r.companyKey →
        (Search.toRanked query c2).score ≤ r.score) := by
  intro r hr
  obtain ⟨-, -, bprov⟩ := foldl_upsert_spec
    (List.insertionSort Search.scoreDesc (candidates.map (Search.toRanked query))) []
    (fun p hp => absurd hp (List.not_mem_nil p)) (by simp)
  obtain ⟨p, hp, hpr⟩ := List.mem_map.1 hr
  rcases bprov p hp with ⟨habs, -⟩ | ⟨hmem, hkey, hdom, -⟩
  · exact absurd habs (List.not_mem_nil p)
  · have hperm := List.perm_insertionSort Search.scoreDesc
      (candidates.map (Search.toRanked query))
    constructor
    · obtain ⟨c, hc, hcr⟩ := List.mem_map.1 (hperm.subset hmem)
      exact ⟨c, hc, by rw [← hpr, ← hcr]⟩
    · intro c2 hc2 hck
      have hx : Search.toRanked query c2 ∈ List.insertionSort Search.scoreDesc
          (candidates.map (Search.toRanked query)) :=
        hperm.mem_iff.2 (List.mem_map_of_mem _ hc2)
      have hle := hdom (Search.toRanked query c2) hx (by rw [hck, ← hpr, hkey])
      rw [hpr] at hle
      exact hle

/-- Helper: the values of the `byCompany` map carry pairwise-distinct company
keys. -/
theorem byCompany_keys_pairwise (candidates : List Search.Candidate) (query : String) :
    ((((List.insertionSort Search.scoreDesc
        (candidates.map (Search.toRanked query))).foldl
          Search.upsertByCompany []).map Prod.snd).Pairwise
      (fun a b => a.companyKey ≠ b.companyKey)) := by
  obtain ⟨bkeys, bnd, -⟩ := foldl_upsert_spec
    (List.insertionSort Search.scoreDesc (candidates.map (Search.toRanked query))) []
    (fun p hp => absurd hp (List.not_mem_nil p)) (by simp)
  have h1 := List.pairwise_map.1 bnd
  refine List.pairwise_map.2 (h1.imp_of_mem ?_)
  intro p q hp hq hne heq
  apply hne
  rw [bkeys p hp, bkeys q hq] at heq
  exact heq

/-- C8: `rankAndDeduplicate` deduplicates by company key — the output has
pairwise-distinct company keys (so two input candidates sharing a key yield at
most one entry), and every output entry arises from an input candidate whose
score is maximal among all input candidates sharing its company key. -/
theorem search_rank_deduplicates (candidates : List Search.Candidate) (query : String)
    (limit : ℕ) :
    (Search.rankAndDeduplicate candidates query limit).Pairwise
      (fun a b => Search.makeCompanyKey a.description a.symbol ≠
        Search.makeCompanyKey b.description b.symbol) ∧
    ∀ it ∈ Search.rankAndDeduplicate candidates query limit,
      ∃ c ∈ candidates, it.symbol = c.symbol ∧ it.description = c.description ∧
        ∀ c2 ∈ candidates,
          Search.makeCompanyKey c2.description c2.symbol =
            Search.makeCompanyKey c.description c.symbol →
          Search.scoreCandidate c2 query ≤ Search.scoreCandidate c query := by
  obtain ⟨l2, hsub, heq⟩ := dedupeBySymbol_sublist limit
    (Search.applyScoreCutoff
      (List.insertionSort Search.scoreDesc
        (((List.insertionSort Search.scoreDesc
            (candidates.map (Search.toRanked query))).foldl
              Search.upsertByCompany []).map Prod.snd))
      query limit) [] 0
  have hout : Search.rankAndDeduplicate candidates query limit =
      l2.map Search.toSearchItem := heq
  have hmemB : ∀ r ∈ l2,
      r ∈ ((List.insertionSort Search.scoreDesc
        (candidates.map (Search.toRanked query))).foldl
          Search.upsertByCompany []).map Prod.snd := by
    intro r hr
    have h1 := hsub.subset hr
    have h2 := (applyScoreCutoff_sublist query limit _).subset h1
    exact (List.perm_insertionSort _ _).subset h2
  have hkeyeq : ∀ x ∈ l2,
      Search.makeCompanyKey x.description x.symbol = x.companyKey := by
    intro x hx
    obtain ⟨⟨c, -, hcx⟩, -⟩ := byCompany_spec candidates query x (hmemB x hx)
    rw [hcx]
    rfl
  have hPW1 : (List.insertionSort Search.scoreDesc
      (((List.insertionSort Search.scoreDesc
          (candidates.map (Search.toRanked query))).foldl
            Search.upsertByCompany []).map Prod.snd)).Pairwise
      (fun a b => a.companyKey ≠ b.companyKey) :=
    ((List.perm_insertionSort _ _).pairwise_iff
      (fun hne heq2 => hne heq2.symm)).2 (byCompany_keys_pairwise candidates query)
  have hPW2 := List.Pairwise.sublist (applyScoreCutoff_sublist query limit _) hPW1
  have hPW3 := List.Pairwise.sublist hsub hPW2
  constructor
  · rw [hout]
    refine List.pairwise_map.2 (hPW3.imp_of_mem ?_)
    intro a b ha hb hne heq2
    apply hne
    rw [← hkeyeq a ha, ← hkeyeq b hb]
    exact heq2
  · intro it hit
    rw [hout] at hit
    obtain ⟨r, hr, hrit⟩ := List.mem_map.1 hit
    obtain ⟨⟨c, hc, hcr⟩, hmax⟩ := byCompany_spec candidates query r (hmemB r hr)
    refine ⟨c, hc, ?_, ?_, ?_⟩
    · rw [← hrit, hcr]
      rfl
    · rw [← hrit, hcr]
      rfl
    · intro c2 hc2 hkeq
      have h1 : (Search.toRanked query c2).companyKey = r.companyKey := by
        rw [hcr]
        exact hkeq
      have h2 := hmax c2 hc2 h1
      rw [hcr] at h2
      exact h2

end StockPredictor
